import Mathlib

/-!
# TasteLog food reviews: reaction, report and comment handlers

A shallow embedding of `controllers/foodReviewController.js`,
`models/FoodReview.js` and the validators of `routes/foodReviews.js`.

Modelling conventions.

* A handler is a function from the request and the state of the addressed
  document (`none` when `findById` finds nothing) to an `Outcome`: the HTTP
  status, the JSON body and the state of the document after the request.
  A handler that writes nothing returns the document it was given.
* `new Date()` and freshly generated sub-document ids are parameters.
* JavaScript strings are Lean strings; a missing, `null` or `undefined`
  value is `none`; the empty string is falsy.
* `save()` runs the `pre('save')` hook (`syncCounters`) and stores the schema
  paths of the document; `reportsCount` and `removedAt`, which the hook sets
  but the schema does not declare, live on the in-memory document only.
* The `catch` branches (HTTP 500) answer storage exceptions and are outside
  the model, except where a schema validation error is what decides a claim
  (the complaint handlers). The schema timestamps are carried only where a
  query sorts on them (`Stored`).
* A route runs its validation chain first: the sanitizers rewrite the body and
  the errors are recorded on the request; only a handler that reads
  `validationResult(req)` acts on them.
* The length of a string counts its characters; `slice(0, 60)` counts UTF-16
  code units, of which a character outside the Basic Multilingual Plane has
  two (`jsSlice`).
* `findById` hands the handler a hydrated document: the schema casts a
  `likedBy` / `dislikedBy` that is not an array to one and fills a missing one
  with the default `[]`, and the next `save()` writes them (`hydrate`). The
  toggles read with `.lean()` and see the stored shape.
* `save()` writes the Mixed path `reports` only when it was assigned a new
  value; an array read from the document, pushed into and assigned back is the
  same object, and `save()` sends no write for it (`storeAfterReport`).
* The schema paths `images` and `featured` play no part in the statements and
  are left out of `Review`.
-/

namespace TasteLog

/-! ## Data model (`models/FoodReview.js`) -/

/-- Stored shape of `likedBy` / `dislikedBy`: an array of user ids, a bare
legacy value (held as the text `String(v)` gives), or a missing field. -/
inductive IdField where
  | arr (ids : List String)
  | str (s : String)
  | absent
  deriving DecidableEq, Repr

/-- One entry of `reports` (`ReportSchema`). -/
structure Report where
  userId : String
  reason : String
  createdAt : Nat
  deriving DecidableEq, Repr

/-- Stored shape of `reports` (`Schema.Types.Mixed`): an array of reports, the
legacy numeric count, or any other value. -/
inductive ReportsField where
  | arr (reports : List Report)
  | num (n : Nat)
  | other
  deriving DecidableEq, Repr

/-- One entry of `comments` (`CommentSchema`). -/
structure Comment where
  id : String
  text : String
  author : String
  authorName : Option String
  createdAt : Nat
  deriving DecidableEq, Repr

/-- A food review document (`FoodReviewSchema`). -/
structure Review where
  title : String
  description : String
  rating : Option Rat
  imageUrl : Option String
  visitDate : Option Nat
  cuisine : Option String
  area : Option String
  diningStyle : Option String
  price : Option String
  tags : List String
  authorId : String
  authorName : Option String
  likedBy : IdField
  dislikedBy : IdField
  likes : Nat
  dislikes : Nat
  comments : List Comment
  reports : ReportsField
  isRemoved : Bool
  reportsCount : Option Nat
  removedAt : Option Nat
  deriving DecidableEq, Repr

/-! ## Requests and responses -/

/-- The keys of a PATCH body; `none` when the key is not in the body. The
first ten are the whitelisted ones; the keys from `authorId` on are other
schema paths a body may carry. -/
structure UpdateBody where
  title : Option String := none
  description : Option String := none
  rating : Option (Option Rat) := none
  cuisine : Option (Option String) := none
  area : Option (Option String) := none
  diningStyle : Option (Option String) := none
  price : Option (Option String) := none
  imageUrl : Option (Option String) := none
  tags : Option (List String) := none
  visitDate : Option (Option Nat) := none
  authorId : Option String := none
  likedBy : Option (List String) := none
  dislikedBy : Option (List String) := none
  likes : Option Nat := none
  dislikes : Option Nat := none
  reports : Option ReportsField := none
  isRemoved : Option Bool := none
  comments : Option (List Comment) := none
  deriving DecidableEq, Repr

/-- The body of a create request, key by key; `none` when the key is missing.
For `title`, `description` and `rating`, `none` also stands for a value of the
wrong type (not a string, not numeric); `visitDate = some none` is a value that
is not an ISO 8601 date. The keys from `likedBy` to `isRemoved` are schema
paths that the validators do not mention and that `...req.body` carries into
the document. `illTyped` lists the validated fields among `cuisine`, `area`,
`diningStyle`, `price`, `imageUrl`, `images`, `images.*`, `tags`, `tags.*` and
`authorName` whose value is in the body and is not of the type the validator
asks for: not a string (`null` included), for `images` and `tags` not an
array, for `images.*` and `tags.*` an array with an entry that is not a
string. The check of a field listed there fails whatever the typed field
holds. -/
structure CreateBody where
  title : Option String := none
  description : Option String := none
  rating : Option Rat := none
  cuisine : Option String := none
  area : Option String := none
  diningStyle : Option String := none
  price : Option String := none
  imageUrl : Option String := none
  tags : Option (List String) := none
  visitDate : Option (Option Nat) := none
  authorName : Option String := none
  username : Option String := none
  authorId : Option String := none
  likedBy : Option (List String) := none
  dislikedBy : Option (List String) := none
  likes : Option Nat := none
  dislikes : Option Nat := none
  comments : Option (List Comment) := none
  reports : Option ReportsField := none
  isRemoved : Option Bool := none
  illTyped : List String := []
  deriving DecidableEq, Repr

/-- What a handler reads from the request. -/
structure Request where
  userId : Option String := none
  xUserId : Option String := none
  reason : Option String := none
  text : Option String := none
  name : Option String := none
  commentId : String := ""
  update : UpdateBody := {}
  create : CreateBody := {}
  validationErrors : List String := []
  deriving DecidableEq, Repr

/-- JSON bodies of the responses. -/
inductive Body where
  | message (text : String)
  | reaction (liked : Bool) (likesCount : Nat) (disliked : Bool) (dislikesCount : Nat)
  | report (reportsCount : Nat) (removed : Bool)
  | comment (c : Comment)
  | comments (cs : List Comment)
  | review (r : Review)
  | ok
  | errors (es : List String)
  deriving DecidableEq, Repr

/-- Result of a handler: status, body and the stored document afterwards. -/
structure Outcome where
  status : Nat
  body : Body
  doc : Option Review
  deriving DecidableEq, Repr

/-! ## JavaScript helpers -/

/-- Truthiness of a string-or-missing value. -/
def truthy : Option String → Bool
  | some s => s ≠ ""
  | none => false

/-- The operator `a || b` on string-or-missing values. -/
def jsOr (a b : Option String) : Option String :=
  if truthy a then a else b

/-- Source: `const getUid = (req) => req.userId || req.header("X-User-Id") || null` -/
def getUid (req : Request) : Option String :=
  jsOr (jsOr req.userId req.xUserId) none

/-- Source: `Array.prototype.indexOf`: index of the first occurrence, `-1` if none. -/
def indexOf : List String → String → Int
  | [], _ => -1
  | y :: ys, x =>
    if y = x then 0
    else if indexOf ys x ≥ 0 then indexOf ys x + 1 else -1

/-- Source: `arr.splice(idx, 1)` for `idx ≥ 0`. -/
def splice1 (xs : List String) (idx : Int) : List String :=
  xs.eraseIdx idx.toNat

/-- Source: `Array.prototype.includes` -/
def includes (xs : List String) (x : String) : Bool :=
  decide (x ∈ xs)

/-- Source: `arr.push(x)` -/
def push {α : Type} (xs : List α) (x : α) : List α :=
  xs ++ [x]

/-- Source: `const i = arr.indexOf(x); if (i >= 0) arr.splice(i, 1);` -/
def removeFirst (xs : List String) (x : String) : List String :=
  if indexOf xs x ≥ 0 then splice1 xs (indexOf xs x) else xs

/-- White space and line terminators that `String.prototype.trim` strips. -/
def isJsSpace (c : Char) : Bool :=
  decide (c.toNat ∈ [9, 10, 11, 12, 13, 32, 160, 5760, 8232, 8233, 8239, 8287, 12288, 65279])
    || (decide (8192 ≤ c.toNat) && decide (c.toNat ≤ 8202))

/-- Source: `String.prototype.trim` -/
def jsTrim (s : String) : String :=
  String.mk ((s.data.dropWhile isJsSpace).reverse.dropWhile isJsSpace).reverse

/-- Number of UTF-16 code units of a character: two outside the Basic
Multilingual Plane. -/
def utf16Units (c : Char) : Nat :=
  if c.toNat < 65536 then 1 else 2

/-- The characters of `s.slice(0, n)`, with `n` counted in UTF-16 code units. A
character of two units that straddles the cut leaves its first unit, a lone
surrogate, which is no character of a Lean string; it is held as U+FFFD, the
character the store encodes it to. -/
def sliceUnits : Nat → List Char → List Char
  | _, [] => []
  | n, c :: cs =>
    if utf16Units c ≤ n then c :: sliceUnits (n - utf16Units c) cs
    else if n = 0 then [] else [Char.ofNat 65533]

/-- Source: `s.slice(0, n)` -/
def jsSlice (n : Nat) (s : String) : String :=
  String.mk (sliceUnits n s.data)

/-- Whether `slice(0, n)` cuts a character of two code units in half. -/
def cutsInsideChar : Nat → List Char → Bool
  | _, [] => false
  | n, c :: cs =>
    if utf16Units c ≤ n then cutsInsideChar (n - utf16Units c) cs
    else decide (n ≠ 0)

/-- Legacy normalisation of the toggles:
`Array.isArray(v) ? [...v] : (v ? [String(v)] : [])`. -/
def normalize : IdField → List String
  | .arr ids => ids
  | .str s => if s ≠ "" then [s] else []
  | .absent => []

/-! ## Model hooks (`models/FoodReview.js`) -/

/-- Source: `Array.isArray(v) ? v.length : 0` -/
def arrayLength : IdField → Nat
  | .arr ids => ids.length
  | _ => 0

/-- Source: `Array.isArray(r) ? r.length : (typeof r === 'number' ? r : 0)` -/
def repCount : ReportsField → Nat
  | .arr reports => reports.length
  | .num n => n
  | .other => 0

/-- Source: `FoodReviewSchema.methods.syncCounters` -/
def syncCounters (now : Nat) (r : Review) : Review :=
  let r1 := { r with likes := arrayLength r.likedBy }
  let r2 := { r1 with dislikes := arrayLength r1.dislikedBy }
  let r3 := { r2 with reportsCount := some (repCount r2.reports) }
  if !r3.isRemoved && decide (r3.reportsCount.getD 0 ≥ 5) then
    { r3 with isRemoved := true, removedAt := some now }
  else r3

/-- Source: `doc.save()`: the `pre('save')` hook runs `syncCounters`; the result is the
in-memory document. -/
def save (now : Nat) (r : Review) : Review :=
  syncCounters now r

/-- The part of an in-memory document that is stored: the schema paths. -/
def persist (r : Review) : Review :=
  { r with reportsCount := none, removedAt := none }

/-- Casting of a stored `likedBy` / `dislikedBy` by the schema type `[String]`
when `findById` hydrates the document: an array stays, a bare value `v` becomes
`[v]`, a missing one takes the default `[]`. -/
def hydrateIds : IdField → IdField
  | .arr ids => .arr ids
  | .str s => .arr [s]
  | .absent => .arr []

/-- The document `findById` hands to a handler. The two cast paths count as
modified, so the next `save()` stores them. -/
def hydrate (r : Review) : Review :=
  { r with likedBy := hydrateIds r.likedBy, dislikedBy := hydrateIds r.dislikedBy }

/-! ## Handlers (`controllers/foodReviewController.js`) -/

/-- Source: `exports.toggleLike` -/
def toggleLike (req : Request) (doc : Option Review) : Outcome :=
  match getUid req with
  | none => ⟨400, .message "Missing user id", doc⟩
  | some uid =>
    match doc with
    | none => ⟨404, .message "Review not found", none⟩
    | some review =>
      if review.isRemoved then ⟨404, .message "Review not found", some review⟩
      else
        let likedByArr := normalize review.likedBy
        let dislikedByArr := normalize review.dislikedBy
        let hasLiked := includes likedByArr uid
        let likedByNew :=
          if hasLiked then removeFirst likedByArr uid
          else if !includes likedByArr uid then push likedByArr uid else likedByArr
        let dislikedByNew :=
          if hasLiked then dislikedByArr else removeFirst dislikedByArr uid
        let likesCount := likedByNew.length
        let dislikesCount := dislikedByNew.length
        let updated := { review with
          likedBy := .arr likedByNew, dislikedBy := .arr dislikedByNew,
          likes := likesCount, dislikes := dislikesCount }
        ⟨200, .reaction (!hasLiked) likesCount false dislikesCount, some updated⟩

/-- Source: `exports.toggleDislike` -/
def toggleDislike (req : Request) (doc : Option Review) : Outcome :=
  match getUid req with
  | none => ⟨400, .message "Missing user id", doc⟩
  | some uid =>
    match doc with
    | none => ⟨404, .message "Review not found", none⟩
    | some review =>
      if review.isRemoved then ⟨404, .message "Review not found", some review⟩
      else
        let likedByArr := normalize review.likedBy
        let dislikedByArr := normalize review.dislikedBy
        let hasDisliked := includes dislikedByArr uid
        let dislikedByNew :=
          if hasDisliked then removeFirst dislikedByArr uid
          else if !includes dislikedByArr uid then push dislikedByArr uid else dislikedByArr
        let likedByNew :=
          if hasDisliked then likedByArr else removeFirst likedByArr uid
        let likesCount := likedByNew.length
        let dislikesCount := dislikedByNew.length
        let updated := { review with
          likedBy := .arr likedByNew, dislikedBy := .arr dislikedByNew,
          likes := likesCount, dislikes := dislikesCount }
        ⟨200, .reaction false likesCount (!hasDisliked) dislikesCount, some updated⟩

/-- Source: `Array.isArray(r.reports) ? r.reports : []` -/
def reportsArrayOf : ReportsField → List Report
  | .arr reports => reports
  | _ => []

/-- What `save()` stores at the end of `reportReview`, given the `reports` read
from the document and the in-memory document after the hook. When `reports`
was an array, `reportsArray` is that very array: `push` changes it in place and
`r.reports = reportsArray` assigns the Mixed path the object it already holds,
so `save()` sees no change and the stored `reports` stay as they were.
Otherwise `reportsArray` is a new array, and the assignment is written. The
other paths are stored as the hook leaves them. -/
def storeAfterReport (before : ReportsField) (saved : Review) : Review :=
  match before with
  | .arr old => { persist saved with reports := .arr old }
  | _ => persist saved

/-- Source: `exports.reportReview` -/
def reportReview (now : Nat) (req : Request) (doc : Option Review) : Outcome :=
  match getUid req with
  | none => ⟨400, .message "Missing user id", doc⟩
  | some uid =>
    if !truthy req.reason then ⟨400, .message "Reason is required", doc⟩
    else
      match doc with
      | none => ⟨404, .message "Review not found", none⟩
      | some stored =>
        let r := hydrate stored
        let reportsArray := reportsArrayOf r.reports
        if (reportsArray.find? (fun rep => decide (rep.userId = uid))).isSome then
          ⟨409, .message "You already reported this post", some stored⟩
        else
          let pushed := push reportsArray
            { userId := uid, reason := req.reason.getD "", createdAt := now }
          let saved := save now { r with reports := .arr pushed }
          ⟨200, .report pushed.length saved.isRemoved,
            some (storeAfterReport r.reports saved)⟩

/-- The enumerated reasons, as listed by `reportChecks` and by the `enum` of
`ReportSchema`. -/
def reportReasons : List String :=
  ["spam", "abusive", "off-topic", "plagiarism", "advertising", "other"]

/-- The validator `reportChecks` of `routes/foodReviews.js`:
`body('reason').isIn([...]).withMessage('invalid reason')`. -/
def reportChecks (req : Request) : List String :=
  if decide (req.reason.getD "" ∈ reportReasons) then [] else ["invalid reason"]

/-- Source: `router.post('/:id/report', reportChecks, ctrl.reportReview)`: the
validation chain records its errors on the request and passes control on. -/
def reportRoute (now : Nat) (req : Request) (doc : Option Review) : Outcome :=
  reportReview now { req with validationErrors := reportChecks req } doc

/-- Casting of a pushed comment by `CommentSchema` (the `trim` setters). -/
def castComment (c : Comment) : Comment :=
  { c with text := jsTrim c.text, author := jsTrim c.author,
           authorName := c.authorName.map jsTrim }

/-- Source: `exports.addComment` -/
def addComment (now : Nat) (newId : String) (req : Request) (doc : Option Review) : Outcome :=
  let uid := (jsOr (getUid req) (some "anonymous")).getD "anonymous"
  let body := jsTrim ((jsOr req.text (some "")).getD "")
  if body = "" then ⟨400, .message "Text required", doc⟩
  else
    match doc with
    | none => ⟨404, .message "Review not found", none⟩
    | some stored =>
      let r := hydrate stored
      if r.isRemoved then ⟨404, .message "Review not found", some stored⟩
      else
        let newComment : Comment :=
          { id := newId, text := body, author := uid, createdAt := now,
            authorName :=
              if truthy req.name then some (jsSlice 60 (req.name.getD "")) else none }
        let pushed := { r with comments := push r.comments (castComment newComment) }
        let saved := save now pushed
        ⟨201, .comment (saved.comments.getLastD (castComment newComment)),
          some (persist saved)⟩

/-- Source: `exports.deleteComment` -/
def deleteComment (now : Nat) (req : Request) (doc : Option Review) : Outcome :=
  let uid := getUid req
  match doc with
  | none => ⟨404, .message "Review not found", none⟩
  | some stored =>
    let r := hydrate stored
    match r.comments.find? (fun c => decide (c.id = req.commentId)) with
    | none => ⟨404, .message "Comment not found", some stored⟩
    | some c =>
      if !truthy uid || decide (c.author ≠ uid.getD "") then
        ⟨403, .message "Only the author can delete this comment", some stored⟩
      else
        let pulled := { r with comments := r.comments.filter (fun x => decide (x.id ≠ c.id)) }
        let saved := save now pulled
        ⟨200, .ok, some (persist saved)⟩

/-- The loop `for (const k of allowed) if (k in req.body) r[k] = req.body[k]`
with the `trim` setters of the schema. -/
def applyUpdate (b : UpdateBody) (r : Review) : Review :=
  { r with
    title := match b.title with | some v => jsTrim v | none => r.title
    description := match b.description with | some v => jsTrim v | none => r.description
    rating := match b.rating with | some v => v | none => r.rating
    cuisine := match b.cuisine with | some v => v.map jsTrim | none => r.cuisine
    area := match b.area with | some v => v.map jsTrim | none => r.area
    diningStyle := match b.diningStyle with | some v => v.map jsTrim | none => r.diningStyle
    price := match b.price with | some v => v.map jsTrim | none => r.price
    imageUrl := match b.imageUrl with | some v => v.map jsTrim | none => r.imageUrl
    tags := match b.tags with | some v => v.map jsTrim | none => r.tags
    visitDate := match b.visitDate with | some v => v | none => r.visitDate }

/-- Source: `exports.updateReview` -/
def updateReview (now : Nat) (req : Request) (doc : Option Review) : Outcome :=
  match doc with
  | none => ⟨404, .message "Review not found", none⟩
  | some stored =>
    let r := hydrate stored
    let uid := getUid req
    let hasRealAuthor := decide (r.authorId ≠ "") && decide (r.authorId ≠ "anonymous")
    if hasRealAuthor && (!truthy uid || decide (r.authorId ≠ uid.getD "")) then
      ⟨403, .message "Only the author can update this post", some stored⟩
    else
      let saved := save now (applyUpdate req.update r)
      ⟨200, .review (persist saved), some (persist saved)⟩

/-- Source: the sanitizers of `addCommentChecks`
(`body('text').isString().trim()`, `body('name').optional().isString().trim()`),
which rewrite the request body. -/
def sanitizeComment (req : Request) : Request :=
  { req with text := req.text.map jsTrim, name := req.name.map jsTrim }

/-- Source: the validators of `addCommentChecks`: `text` not empty after
trimming, `name` (when present) at most 60 characters after trimming. -/
def addCommentChecks (req : Request) : List String :=
  (if jsTrim (req.text.getD "") = "" then ["text required"] else []) ++
  (match req.name with
    | some n => if (jsTrim n).length ≤ 60 then [] else ["Invalid value"]
    | none => [])

/-- Source: `router.post('/:id/comments', addCommentChecks, ctrl.addComment)`:
the chain sanitizes the body, records its errors and passes control on. -/
def addCommentRoute (now : Nat) (newId : String) (req : Request) (doc : Option Review) :
    Outcome :=
  addComment now newId
    { sanitizeComment req with validationErrors := addCommentChecks req } doc

/-- Source: the comparator `(a, b) => new Date(b.createdAt) - new Date(a.createdAt)`. -/
def newestFirst (a b : Comment) : Int :=
  (b.createdAt : Int) - (a.createdAt : Int)

/-- Source: `Array.prototype.sort(cmp)`, a stable sort: `a` is placed before `b`
unless `cmp a b > 0`. -/
def jsSort {α : Type} (cmp : α → α → Int) (xs : List α) : List α :=
  xs.insertionSort (fun a b => cmp a b ≤ 0)

/-- Source: `exports.listComments` -/
def listComments (doc : Option Review) : Outcome :=
  match doc with
  | none => ⟨404, .message "Review not found", none⟩
  | some r => ⟨200, .comments (jsSort newestFirst r.comments), some r⟩

/-- Source: `exports.getReviewById` -/
def getReviewById (doc : Option Review) : Outcome :=
  match doc with
  | none => ⟨404, .message "Review not found", none⟩
  | some r =>
    if r.isRemoved then ⟨404, .message "Review not found", some r⟩
    else ⟨200, .review r, some r⟩

/-- The error of a validator that asks for a type (`isString`, `isArray`): the
message when the field is listed in `illTyped`, nothing otherwise. -/
def typeCheck (b : CreateBody) (field message : String) : List String :=
  if decide (field ∈ b.illTyped) then [message] else []

/-- The fields of `createChecks` whose validator asks for a type that the typed
body does not express: `isString` on `cuisine`, `area`, `diningStyle`, `price`,
`authorName`, `images.*` and `tags.*`, `isArray` on `images` and `tags`, and
`isURL`, which fails on anything that is not a string, on `imageUrl`. -/
def typedFields : List String :=
  ["cuisine", "area", "diningStyle", "price", "imageUrl", "images", "images.*",
    "tags", "tags.*", "authorName"]

/-- Source: the validators of `createChecks` (`routes/foodReviews.js`), in the
order of the chain. The predicate `isURL` of the validation library is a
parameter; it fails on a value that is not a string. -/
def createChecks (isURL : String → Bool) (b : CreateBody) : List String :=
  (match b.title with
    | some t => if 3 ≤ (jsTrim t).length then [] else ["title ≥ 3 chars"]
    | none => ["title ≥ 3 chars"]) ++
  (match b.description with
    | some d => if 20 ≤ (jsTrim d).length then [] else ["description ≥ 20 chars"]
    | none => ["description ≥ 20 chars"]) ++
  (match b.rating with
    | some q => if 1 ≤ q ∧ q ≤ 5 then [] else ["rating 1–5"]
    | none => ["rating 1–5"]) ++
  typeCheck b "cuisine" "Invalid value" ++
  typeCheck b "area" "Invalid value" ++
  typeCheck b "diningStyle" "Invalid value" ++
  typeCheck b "price" "Invalid value" ++
  (if decide ("imageUrl" ∈ b.illTyped) then ["imageUrl must be a URL"]
    else match b.imageUrl with
      | some u => if isURL u then [] else ["imageUrl must be a URL"]
      | none => []) ++
  typeCheck b "images" "images must be an array of strings (base64 or URLs)" ++
  typeCheck b "images.*" "images entries must be strings" ++
  typeCheck b "tags" "tags must be an array of strings" ++
  typeCheck b "tags.*" "Invalid value" ++
  (match b.visitDate with
    | some none => ["Invalid value"]
    | _ => []) ++
  (if decide ("authorName" ∈ b.illTyped) then ["Invalid value"]
    else match b.authorName with
      | some n => if (jsTrim n).length ≤ 60 then [] else ["Invalid value"]
      | none => [])

/-- Source: the sanitizers of `createChecks` (`.trim()` on the string fields). -/
def sanitizeCreate (b : CreateBody) : CreateBody :=
  { b with
    title := b.title.map jsTrim
    description := b.description.map jsTrim
    cuisine := b.cuisine.map jsTrim
    area := b.area.map jsTrim
    diningStyle := b.diningStyle.map jsTrim
    price := b.price.map jsTrim
    tags := b.tags.map (fun ts => ts.map jsTrim)
    authorName := b.authorName.map jsTrim }

/-- The document `FoodReview.create({ ...req.body, authorId, authorName })`
builds: every schema path present in the body is cast (strings trimmed), the
others take their schema defaults, and `authorId` is the one computed by the
handler. -/
def castReview (b : CreateBody) (authorId : String) (authorName : Option String) : Review :=
  { title := jsTrim (b.title.getD "")
    description := jsTrim (b.description.getD "")
    rating := b.rating
    imageUrl := b.imageUrl.map jsTrim
    visitDate := b.visitDate.getD none
    cuisine := b.cuisine.map jsTrim
    area := b.area.map jsTrim
    diningStyle := b.diningStyle.map jsTrim
    price := b.price.map jsTrim
    tags := (b.tags.getD []).map jsTrim
    authorId := authorId
    authorName := authorName.map jsTrim
    likedBy := .arr (b.likedBy.getD [])
    dislikedBy := .arr (b.dislikedBy.getD [])
    likes := b.likes.getD 0
    dislikes := b.dislikes.getD 0
    comments := (b.comments.getD []).map castComment
    reports := b.reports.getD (.arr [])
    isRemoved := b.isRemoved.getD false
    reportsCount := none
    removedAt := none }

/-- Source: `exports.createReview`; the resulting `doc` is the new document. -/
def createReview (now : Nat) (req : Request) : Outcome :=
  if req.validationErrors ≠ [] then ⟨400, .errors req.validationErrors, none⟩
  else
    let uid := getUid req
    let authorId := (jsOr uid (some "anonymous")).getD "anonymous"
    let authorName := jsOr (jsOr req.create.authorName req.create.username) none
    let review := castReview req.create authorId
      (if truthy authorName then authorName else req.create.authorName)
    let saved := save now review
    ⟨201, .review (persist saved), some (persist saved)⟩

/-- Source: `router.post('/', createChecks, ctrl.createReview)`: the chain
sanitizes the body, records its errors and passes control on. -/
def createRoute (isURL : String → Bool) (now : Nat) (req : Request) : Outcome :=
  createReview now
    { req with
      create := sanitizeCreate req.create
      validationErrors := createChecks isURL req.create }

/-- Source: `exports.deleteReview`; after `r.deleteOne()` no document is left. -/
def deleteReview (req : Request) (doc : Option Review) : Outcome :=
  match doc with
  | none => ⟨404, .message "Review not found", none⟩
  | some r =>
    let uid := getUid req
    let hasRealAuthor := decide (r.authorId ≠ "") && decide (r.authorId ≠ "anonymous")
    if hasRealAuthor && (!truthy uid || decide (r.authorId ≠ uid.getD "")) then
      ⟨403, .message "Only the author can delete this post", some r⟩
    else
      ⟨200, .message "Review deleted successfully", none⟩

/-- Source: `router.delete('/:id', idCheck, adminOnly, ctrl.deleteReview)`.
The middleware `adminOnly` of `middleware/auth` is not among the sources and is
a parameter: on a request it either passes control on to the handler (`none`)
or answers itself, with a status and a message, and the handler does not run. -/
def deleteRoute (adminOnly : Request → Option (Nat × String)) (req : Request)
    (doc : Option Review) : Outcome :=
  match adminOnly req with
  | none => deleteReview req doc
  | some denial => ⟨denial.1, .message denial.2, doc⟩

/-- Source: `exports.updateReview` of `controllers/adminController.js`, called
with the `isRemoved` of the body (`none` when the body has none); `featured` is
not a schema path and is not stored. -/
def adminUpdateReview (now : Nat) (isRemoved : Option Bool) (doc : Option Review) : Outcome :=
  match doc with
  | none => ⟨404, .message "Review not found", none⟩
  | some stored =>
    let review := hydrate stored
    let assigned := match isRemoved with
      | some b => { review with isRemoved := b }
      | none => review
    let saved := save now assigned
    ⟨200, .review (persist saved), some (persist saved)⟩

/-- A stored review together with its `createdAt` timestamp, which the list
query sorts on. -/
structure Stored where
  createdAt : Nat
  review : Review
  deriving DecidableEq, Repr

/-- A facet of the list query (`cuisine`, `area`, `diningStyle`): missing, a
single value, or an array of values. -/
inductive Facet where
  | absent
  | one (v : String)
  | many (vs : List String)
  deriving DecidableEq, Repr

/-- The query string of `GET /`. -/
structure ListQuery where
  q : Option String := none
  cuisine : Facet := .absent
  area : Facet := .absent
  diningStyle : Facet := .absent
  sort : Option String := none
  deriving DecidableEq, Repr

/-- Source: `if (cuisine) filter.cuisine = Array.isArray(cuisine) ? { $in: cuisine } : cuisine`,
evaluated on the stored value: an empty string sets no condition, a single
value asks for equality, an array for membership. -/
def facetMatches (f : Facet) (v : Option String) : Bool :=
  match f with
  | .absent => true
  | .one s => if s = "" then true else decide (v = some s)
  | .many vs =>
    match v with
    | some x => decide (x ∈ vs)
    | none => false

/-- Source: the `$or` that `getReviews` adds `if (q && q.trim())`. The match of
the case-insensitive regular expression is the parameter `rx pattern text`. -/
def searchMatches (rx : String → String → Bool) (q : Option String) (r : Review) : Bool :=
  if truthy q && decide (jsTrim (q.getD "") ≠ "") then
    let p := jsTrim (q.getD "")
    rx p r.title || rx p r.description ||
      (match r.cuisine with | some v => rx p v | none => false) ||
      (match r.area with | some v => rx p v | none => false) ||
      (match r.diningStyle with | some v => rx p v | none => false) ||
      r.tags.any (rx p)
  else true

/-- Source: the filter `getReviews` builds, starting from
`{ isRemoved: { $ne: true } }`, evaluated on one stored review. -/
def listFilter (rx : String → String → Bool) (query : ListQuery) (r : Review) : Bool :=
  decide (r.isRemoved ≠ true) &&
    facetMatches query.cuisine r.cuisine &&
    facetMatches query.area r.area &&
    facetMatches query.diningStyle r.diningStyle &&
    searchMatches rx query.q r

/-- Order of two optional values in an ascending sort of the store: a missing
value comes first. -/
def optLe {α : Type} (le : α → α → Bool) : Option α → Option α → Bool
  | none, _ => true
  | some _, none => false
  | some a, some b => le a b

/-- Source: the `switch (sort)` of `getReviews`: whether `a` may stand before
`b` under the sort specification chosen by `sort`. -/
def sortBefore (sort : Option String) (a b : Stored) : Bool :=
  match sort with
  | some "rating_desc" =>
    if a.review.rating = b.review.rating then decide (b.createdAt ≤ a.createdAt)
    else optLe (fun x y => decide (x ≤ y)) b.review.rating a.review.rating
  | some "rating_asc" =>
    if a.review.rating = b.review.rating then decide (b.createdAt ≤ a.createdAt)
    else optLe (fun x y => decide (x ≤ y)) a.review.rating b.review.rating
  | some "price_low" => optLe (fun x y => decide (x ≤ y)) a.review.price b.review.price
  | some "price_high" => optLe (fun x y => decide (x ≤ y)) b.review.price a.review.price
  | _ => decide (b.createdAt ≤ a.createdAt)

/-- Source: `exports.getReviews`: the stored reviews that pass the filter, in
the order of the sort; the answer is 200 with that list. -/
def getReviews (rx : String → String → Bool) (query : ListQuery) (docs : List Stored) :
    Nat × List Stored :=
  (200, (docs.filter (fun d => listFilter rx query d.review)).insertionSort
    (fun a b => sortBefore query.sort a b = true))

/-! ## Predicates used by the statements -/

/-- No identity occurs in both reaction arrays of the review. -/
def Exclusive (r : Review) : Prop :=
  ∀ u, ¬ (u ∈ normalize r.likedBy ∧ u ∈ normalize r.dislikedBy)

/-- Number of distinct identities in a reaction field. -/
def distinctCount (f : IdField) : Nat :=
  (normalize f).dedup.length

/-- Mirror image of a review: the two reaction arrays and the two counters
change places. -/
def swapReview (r : Review) : Review :=
  { r with likedBy := r.dislikedBy, dislikedBy := r.likedBy,
           likes := r.dislikes, dislikes := r.likes }

/-- Mirror image of a response body: `liked`/`likesCount` change places with
`disliked`/`dislikesCount`. -/
def swapBody : Body → Body
  | .reaction liked likesCount disliked dislikesCount =>
    .reaction disliked dislikesCount liked likesCount
  | b => b

/-- Mirror image of an outcome. -/
def swapOutcome (o : Outcome) : Outcome :=
  { status := o.status, body := swapBody o.body, doc := o.doc.map swapReview }

/-- A blank, non-removed review used in the worked examples. -/
def sampleReview : Review :=
  { title := "Great Place Indeed", description := "Tasty food, kind service.",
    rating := some 5, imageUrl := none, visitDate := none, cuisine := none,
    area := none, diningStyle := none, price := none, tags := [],
    authorId := "anonymous", authorName := none,
    likedBy := .arr [], dislikedBy := .arr [], likes := 0, dislikes := 0,
    comments := [], reports := .arr [], isRemoved := false,
    reportsCount := none, removedAt := none }

/-- A request carrying only the header `X-User-Id`. -/
def asUser (u : String) : Request :=
  { xUserId := some u }

/-- A review whose `dislikedBy` array holds the id `"u"` twice. -/
def dupDisliked : Review :=
  { sampleReview with dislikedBy := .arr ["u", "u"], dislikes := 2 }

/-- A review liked by `"v"` and disliked by `"u"`. -/
def likedV_dislikedU : Review :=
  { sampleReview with likedBy := .arr ["v"], dislikedBy := .arr ["u"], likes := 1, dislikes := 1 }

/-- The stored counters agree with the stored arrays: `likes` is the number of
entries of `likedBy` when that is an array (0 otherwise), and likewise
`dislikes`. -/
def InSync (r : Review) : Prop :=
  r.likes = arrayLength r.likedBy ∧ r.dislikes = arrayLength r.dislikedBy

/-- A review whose `likedBy` array holds the id `"a"` twice. -/
def dupLiked : Review :=
  { sampleReview with likedBy := .arr ["a", "a"], likes := 2 }

/-- A review whose `likedBy` array holds the id `"u"` twice. -/
def likedTwiceByU : Review :=
  { sampleReview with likedBy := .arr ["u", "u"], likes := 2 }

/-- A review liked by `"u"` alone. -/
def likedByU : Review :=
  { sampleReview with likedBy := .arr ["u"], likes := 1 }

/-- A review with no reactions whose stored `likes` is a stale 7. -/
def staleLikes : Review :=
  { sampleReview with likes := 7 }

/-- The `$set` of the toggles: both arrays and both counters are written, the
counters being the lengths of the arrays. -/
def withReactions (r : Review) (likedBy dislikedBy : List String) : Review :=
  { r with likedBy := .arr likedBy, dislikedBy := .arr dislikedBy,
           likes := likedBy.length, dislikes := dislikedBy.length }

/-- A report request by `"u1"` whose reason is not one of the enumerated ones. -/
def bogusReport : Request :=
  { xUserId := some "u1", reason := some "bogus" }

/-- A report request by `"u5"` with the reason `spam`. -/
def spamReportByU5 : Request :=
  { xUserId := some "u5", reason := some "spam" }

/-- Four reports by the users `"u1"` to `"u4"`. -/
def fourReports : List Report :=
  [⟨"u1", "spam", 1⟩, ⟨"u2", "other", 2⟩, ⟨"u3", "abusive", 3⟩, ⟨"u4", "spam", 4⟩]

/-- A non-removed review carrying four reports. -/
def reportedFourTimes : Review :=
  { sampleReview with reports := .arr fourReports }

/-- A review that `"u5"` has already reported. -/
def reportedByU5 : Review :=
  { sampleReview with reports := .arr [⟨"u5", "spam", 3⟩] }

/-- A removed review carrying four reports. -/
def removedWithFourReports : Review :=
  { sampleReview with reports := .arr fourReports, isRemoved := true }

/-- The reports hold no two reports with the same `userId`. -/
def OneReportPerUser (r : Review) : Prop :=
  ((reportsArrayOf r.reports).map Report.userId).Nodup

/-- The comment that `addComment` builds from the request and pushes: the
object literal `newComment`, cast by `CommentSchema`. -/
def commentOf (now : Nat) (newId : String) (req : Request) : Comment :=
  castComment
    { id := newId, text := jsTrim (req.text.getD ""),
      author := (getUid req).getD "anonymous", createdAt := now,
      authorName := if truthy req.name then some (jsSlice 60 (req.name.getD "")) else none }

/-- A display name of 62 characters whose 60th character is a space. -/
def longName : String :=
  String.mk (List.replicate 59 'a' ++ [' ', 'b', 'c'])

/-- A comment request by `"u1"` with the text `"hello"` and the name `longName`. -/
def namedComment : Request :=
  { xUserId := some "u1", text := some "hello", name := some longName }

/-- A comment request whose `req.userId` is `" u1 "`, with blanks around the id. -/
def paddedUserComment : Request :=
  { userId := some " u1 ", text := some "hello" }

/-- A display name of 60 characters: 30 times U+1F600, a character of two
UTF-16 code units, then 30 times `a`. -/
def emojiName : String :=
  String.mk (List.replicate 30 (Char.ofNat 128512) ++ List.replicate 30 'a')

/-- A comment request by `"u1"` with the text `"hello"` and the name `emojiName`. -/
def emojiComment : Request :=
  { xUserId := some "u1", text := some "hello", name := some emojiName }

/-- A comment request by `"u1"` with the text `"hello"`. -/
def helloByU1 : Request :=
  { xUserId := some "u1", text := some "hello" }

/-- The request of `"u2"` to delete the comment `"c1"`. -/
def deleteC1ByU2 : Request :=
  { xUserId := some "u2", commentId := "c1" }

/-- The request of `"u1"` to delete the comment `"c1"`. -/
def deleteC1ByU1 : Request :=
  { xUserId := some "u1", commentId := "c1" }

/-- Three comments, created at the times 1, 2 and 3, stored oldest first. -/
def threeComments : List Comment :=
  [⟨"c1", "first", "u1", none, 1⟩, ⟨"c2", "second", "u2", none, 2⟩,
   ⟨"c3", "third", "u1", none, 3⟩]

/-- A review carrying `threeComments`. -/
def commentedThrice : Review :=
  { sampleReview with comments := threeComments }

/-- A stand-in for the URL predicate of the validation library, used in the
worked examples, none of which carries an `imageUrl`. -/
def anyURL : String → Bool :=
  fun _ => true

/-- The create body of the round-trip scenario: rating 5, the title
`"Great Place Indeed"` and a description of 25 characters. -/
def greatPlace : CreateBody :=
  { title := some "Great Place Indeed", description := some "Tasty food, kind service.",
    rating := some 5 }

/-- The body `greatPlace` without its rating. -/
def greatPlaceUnrated : CreateBody :=
  { greatPlace with rating := none }

/-- The body `greatPlace` with a `visitDate` that is not an ISO 8601 date. -/
def greatPlaceBadDate : CreateBody :=
  { greatPlace with visitDate := some none }

/-- The body `greatPlace` with `tags: "spicy"`, a string and not an array. -/
def greatPlaceTagsString : CreateBody :=
  { greatPlace with illTyped := ["tags"] }

/-- The body `greatPlace` with `cuisine: 5`, a number and not a string. -/
def greatPlaceCuisineNumber : CreateBody :=
  { greatPlace with illTyped := ["cuisine"] }

/-- The body `greatPlace` with blanks around the title. -/
def greatPlacePadded : CreateBody :=
  { greatPlace with title := some "  Great Place Indeed " }

/-- The body `greatPlace` carrying `isRemoved: true`. -/
def greatPlaceRemoved : CreateBody :=
  { greatPlace with isRemoved := some true }

/-- The body `greatPlace` carrying `likedBy: ["x"]`. -/
def greatPlaceLiked : CreateBody :=
  { greatPlace with likedBy := some ["x"] }

/-- The document that an accepted create request stores and returns: the body
as sanitized by the route, cast, saved, with the author computed by the
handler. -/
def createdDoc (now : Nat) (req : Request) : Review :=
  persist (save now (castReview (sanitizeCreate req.create)
    ((getUid req).getD "anonymous")
    (if truthy (jsOr (jsOr (sanitizeCreate req.create).authorName
        (sanitizeCreate req.create).username) none)
      then jsOr (jsOr (sanitizeCreate req.create).authorName
        (sanitizeCreate req.create).username) none
      else (sanitizeCreate req.create).authorName)))

/-- The create request of `"u1"` with the body `greatPlace`. -/
def createByU1 : Request :=
  { xUserId := some "u1", create := greatPlace }

/-- A review written by `"u1"`. -/
def reviewOfU1 : Review :=
  { sampleReview with authorId := "u1" }

/-- The review with both reaction fields brought to the array shape. -/
def canonical (r : Review) : Review :=
  { r with likedBy := .arr (normalize r.likedBy), dislikedBy := .arr (normalize r.dislikedBy) }

/-- A review in the older format: `likedBy` is the bare string `"v"` and
`dislikedBy` is missing. -/
def legacyLikedByV : Review :=
  { sampleReview with likedBy := .str "v", dislikedBy := .absent, likes := 1 }

/-- An update request without identity and with an empty body. -/
def emptyUpdate : Request :=
  {}

/-- The review with the four fields a toggle writes blanked out: what is left
is everything a toggle must not touch. -/
def withoutReactions (r : Review) : Review :=
  { r with likedBy := .absent, dislikedBy := .absent, likes := 0, dislikes := 0 }

/-- The entries of a reaction array other than those of the user `u`, in
their order. -/
def others (u : String) (ids : List String) : List String :=
  ids.filter (fun x => decide (x ≠ u))

/-- An update request by `"u1"` that sets the title and also carries the keys
`authorId`, `likedBy`, `reports`, `isRemoved` and `comments`. -/
def greedyUpdateByU1 : Request :=
  { xUserId := some "u1",
    update :=
      { title := some "A New Title", authorId := some "u9", likedBy := some ["u9"],
        reports := some (.num 0), isRemoved := some true, comments := some [] } }

/-- A non-removed review whose `reports` is the legacy count 7. -/
def sevenLegacyReports : Review :=
  { sampleReview with reports := .num 7 }

/-- Five reports by the users `"u1"` to `"u5"`. -/
def fiveReports : List Report :=
  fourReports ++ [⟨"u5", "spam", 5⟩]

/-- A review removed by the moderation threshold: five reports. -/
def removedWithFiveReports : Review :=
  { sampleReview with reports := .arr fiveReports, isRemoved := true }

/-- An `adminOnly` that lets every requester through, for the worked examples
in which the requester is an admin. -/
def everyoneAdmin : Request → Option (Nat × String) :=
  fun _ => none

/-- A stand-in for the regular-expression match, used in the worked examples:
the pattern occurs as a substring of the text (case is not folded). -/
def containsText (pattern text : String) : Bool :=
  (text.splitOn pattern).length > 1

/-- A collection of three stored reviews, the second of which is removed. -/
def threeStored : List Stored :=
  [⟨1, { sampleReview with title := "First", rating := some 3 }⟩,
   ⟨2, { sampleReview with title := "Second", isRemoved := true }⟩,
   ⟨3, { sampleReview with title := "Third", rating := some 4 }⟩]

/-! ## The two steps of `toggleLike` and their interleavings -/

/-- The arrays `toggleLike` computes from the document it has read (the
handler between its `findById` and its `findByIdAndUpdate`). -/
def likeArrays (uid : String) (review : Review) : List String × List String :=
  let likedByArr := normalize review.likedBy
  let dislikedByArr := normalize review.dislikedBy
  let hasLiked := includes likedByArr uid
  (if hasLiked then removeFirst likedByArr uid
    else if !includes likedByArr uid then push likedByArr uid else likedByArr,
   if hasLiked then dislikedByArr else removeFirst dislikedByArr uid)

/-- The write step of `toggleLike` for a call that has read `read`:
`findByIdAndUpdate(id, { $set: { likedBy, dislikedBy, likes, dislikes } })`
sets the four fields, computed from what was read, on the document stored at
that moment; a call that found no review, or a removed one, has answered 404
and writes nothing. -/
def likeWrite (uid : String) (read stored : Option Review) : Option Review :=
  match read with
  | none => stored
  | some review =>
    if review.isRemoved then stored
    else stored.map
      (fun cur => withReactions cur (likeArrays uid review).1 (likeArrays uid review).2)

/-- The steps of two `toggleLike` calls, A and B, on the same review. -/
inductive Step where
  | readA
  | writeA
  | readB
  | writeB
  deriving DecidableEq, Repr

/-- The stored review and what each of the two calls has read so far. -/
structure Session where
  stored : Option Review
  readA : Option Review
  readB : Option Review
  deriving DecidableEq, Repr

/-- One step of a call, by the user `ua` for A and `ub` for B. -/
def step (ua ub : String) (s : Session) : Step → Session
  | .readA => { s with readA := s.stored }
  | .writeA => { s with stored := likeWrite ua s.readA s.stored }
  | .readB => { s with readB := s.stored }
  | .writeB => { s with stored := likeWrite ub s.readB s.stored }

/-- The stored review after a schedule of steps, starting from `doc`. -/
def runSchedule (ua ub : String) (steps : List Step) (doc : Option Review) : Option Review :=
  (steps.foldl (step ua ub) ⟨doc, none, none⟩).stored

/-- The merges of `x :: xs` with `ys`, given the merges `rest` of `xs` with any
sequence: either `x` comes first, or the head of `ys` does. -/
def mergeInto {α : Type} (x : α) (xs : List α) (rest : List α → List (List α)) :
    List α → List (List α)
  | [] => [x :: xs]
  | y :: ys =>
    (rest (y :: ys)).map (fun l => x :: l) ++
      (mergeInto x xs rest ys).map (fun l => y :: l)

/-- All the ways to merge two sequences keeping the order within each. -/
def merges {α : Type} : List α → List α → List (List α)
  | [], ys => [ys]
  | x :: xs, ys => mergeInto x xs (merges xs) ys

/-- The interleavings of the two calls: each call reads before it writes. -/
def interleavings : List (List Step) :=
  merges [.readA, .writeA] [.readB, .writeB]

/-- The two interleavings in which one call has written before the other
reads. -/
def serialSchedules : List (List Step) :=
  [[.readA, .writeA, .readB, .writeB], [.readB, .writeB, .readA, .writeA]]

/-! ## Complaints (`models/Complaint.js`, the two complaint handlers) -/

/-- A complaint document (`ComplaintSchema`). -/
structure Complaint where
  restaurantName : String
  itemName : Option String
  title : String
  description : String
  userName : String
  postId : Option String
  status : String
  deriving DecidableEq, Repr

/-- Result of a complaint handler: the HTTP status and the stored complaint
afterwards. -/
structure ComplaintOutcome where
  status : Nat
  doc : Option Complaint
  deriving DecidableEq, Repr

/-- Source: the `enum` of `status` in `ComplaintSchema`. -/
def complaintStatuses : List String :=
  ["open", "in_review", "resolved"]

/-- The `required` paths of `ComplaintSchema` hold a value. -/
def requiredPresent (c : Complaint) : Bool :=
  decide (c.restaurantName ≠ "") && decide (c.title ≠ "") && decide (c.description ≠ "")

/-- Source: `exports.updateStatus` of `controllers/complaintController.js`:
`Complaint.findByIdAndUpdate(req.params.id, { status }, { new: true })`. The
update is sent to the store as it is: the schema validators run on `save` and
`create`, and on an update only with the option `runValidators`, which is not
given here. A body without `status` updates nothing. -/
def updateStatus (status : Option String) (doc : Option Complaint) : ComplaintOutcome :=
  match doc with
  | none => ⟨404, none⟩
  | some c =>
    match status with
    | some s => ⟨200, some { c with status := s }⟩
    | none => ⟨200, some c⟩

/-- Source: `exports.updateComplaint` of `controllers/adminController.js`:
`if (status) complaint.status = status; await complaint.save()`. The save
validates the required paths and the paths that were assigned; a validation
error is caught and answered with 500, and nothing is stored. -/
def updateComplaint (status : Option String) (doc : Option Complaint) : ComplaintOutcome :=
  match doc with
  | none => ⟨404, none⟩
  | some c =>
    if truthy status then
      if requiredPresent c && decide (status.getD "" ∈ complaintStatuses) then
        ⟨200, some { c with status := status.getD "" }⟩
      else ⟨500, some c⟩
    else if requiredPresent c then ⟨200, some c⟩ else ⟨500, some c⟩

/-- An open complaint used in the worked examples. -/
def sampleComplaint : Complaint :=
  { restaurantName := "Cafe Uno", itemName := none, title := "Cold soup",
    description := "The soup arrived cold.", userName := "Anonymous", postId := none,
    status := "open" }

/-! ## Lemmas on the array helpers -/

theorem indexOf_ge_neg_one (xs : List String) (x : String) : -1 ≤ indexOf xs x := by
  induction xs with
  | nil => simp [indexOf]
  | cons y ys ih =>
    unfold indexOf
    split_ifs <;> omega

theorem indexOf_nonneg_iff (xs : List String) (x : String) : 0 ≤ indexOf xs x ↔ x ∈ xs := by
  induction xs with
  | nil => simp [indexOf]
  | cons y ys ih =>
    unfold indexOf
    by_cases hy : y = x
    · simp [hy]
    · have hne : ¬ x = y := fun h => hy h.symm
      by_cases hi : indexOf ys x ≥ 0
      · have hm : x ∈ ys := ih.mp hi
        simp [hy, hi, hm]
        omega
      · have hm : ¬ x ∈ ys := fun h => hi (ih.mpr h)
        simp [hy, hi, hm, hne]

theorem removeFirst_eq_erase (xs : List String) (x : String) :
    removeFirst xs x = xs.erase x := by
  induction xs with
  | nil => simp [removeFirst, indexOf]
  | cons y ys ih =>
    by_cases hy : y = x
    · subst hy
      simp [removeFirst, indexOf, splice1]
    · have hbeq : ¬ (y == x) = true := by simpa using hy
      rw [List.erase_cons_tail hbeq]
      rw [← ih]
      unfold removeFirst
      by_cases hi : indexOf ys x ≥ 0
      · have h1 : indexOf (y :: ys) x = indexOf ys x + 1 := by
          simp [indexOf, hy, hi]
        have h2 : (indexOf ys x + 1).toNat = (indexOf ys x).toNat + 1 := by omega
        have h3 : indexOf ys x + 1 ≥ 0 := by omega
        simp [h1, hi, h3, splice1, h2]
      · have h1 : indexOf (y :: ys) x = -1 := by
          simp [indexOf, hy, hi]
        simp [h1, hi]

/-! ## The toggles, case by case -/

theorem includes_eq_true_iff (xs : List String) (x : String) :
    includes xs x = true ↔ x ∈ xs := by
  simp [includes]

theorem toggleLike_liked (req : Request) (r : Review) (u : String)
    (hu : getUid req = some u) (hr : r.isRemoved = false)
    (hm : u ∈ normalize r.likedBy) :
    toggleLike req (some r) =
      ⟨200, .reaction false ((normalize r.likedBy).erase u).length false
          (normalize r.dislikedBy).length,
        some (withReactions r ((normalize r.likedBy).erase u) (normalize r.dislikedBy))⟩ := by
  simp [toggleLike, hu, hr, includes, hm, removeFirst_eq_erase, withReactions]

theorem toggleLike_fresh (req : Request) (r : Review) (u : String)
    (hu : getUid req = some u) (hr : r.isRemoved = false)
    (hm : u ∉ normalize r.likedBy) :
    toggleLike req (some r) =
      ⟨200, .reaction true (normalize r.likedBy ++ [u]).length false
          ((normalize r.dislikedBy).erase u).length,
        some (withReactions r (normalize r.likedBy ++ [u])
          ((normalize r.dislikedBy).erase u))⟩ := by
  simp [toggleLike, hu, hr, includes, hm, removeFirst_eq_erase, push, withReactions]

theorem swapReview_swapReview (r : Review) : swapReview (swapReview r) = r := by
  cases r; rfl

theorem toggleDislike_disliked (req : Request) (r : Review) (u : String)
    (hu : getUid req = some u) (hr : r.isRemoved = false)
    (hm : u ∈ normalize r.dislikedBy) :
    toggleDislike req (some r) =
      ⟨200, .reaction false (normalize r.likedBy).length false
          ((normalize r.dislikedBy).erase u).length,
        some (withReactions r (normalize r.likedBy) ((normalize r.dislikedBy).erase u))⟩ := by
  simp [toggleDislike, hu, hr, includes, hm, removeFirst_eq_erase, withReactions]

theorem toggleDislike_fresh (req : Request) (r : Review) (u : String)
    (hu : getUid req = some u) (hr : r.isRemoved = false)
    (hm : u ∉ normalize r.dislikedBy) :
    toggleDislike req (some r) =
      ⟨200, .reaction false ((normalize r.likedBy).erase u).length true
          (normalize r.dislikedBy ++ [u]).length,
        some (withReactions r ((normalize r.likedBy).erase u)
          (normalize r.dislikedBy ++ [u]))⟩ := by
  simp [toggleDislike, hu, hr, includes, hm, removeFirst_eq_erase, push, withReactions]

theorem toggleLike_noUid (req : Request) (doc : Option Review) (hu : getUid req = none) :
    toggleLike req doc = ⟨400, .message "Missing user id", doc⟩ := by
  simp [toggleLike, hu]

theorem toggleDislike_noUid (req : Request) (doc : Option Review) (hu : getUid req = none) :
    toggleDislike req doc = ⟨400, .message "Missing user id", doc⟩ := by
  simp [toggleDislike, hu]

theorem toggleLike_removed (req : Request) (r : Review) (u : String)
    (hu : getUid req = some u) (hr : r.isRemoved = true) :
    toggleLike req (some r) = ⟨404, .message "Review not found", some r⟩ := by
  simp [toggleLike, hu, hr]

theorem toggleDislike_removed (req : Request) (r : Review) (u : String)
    (hu : getUid req = some u) (hr : r.isRemoved = true) :
    toggleDislike req (some r) = ⟨404, .message "Review not found", some r⟩ := by
  simp [toggleDislike, hu, hr]

theorem not_mem_erase_of_count_le_one (xs : List String) (x : String)
    (h : xs.count x ≤ 1) : x ∉ xs.erase x := by
  have hc : (xs.erase x).count x = 0 := by
    rw [List.count_erase_self]; omega
  exact List.count_eq_zero.mp hc

theorem normalize_arr (ids : List String) : normalize (.arr ids) = ids := rfl

/-! ## C1: mutual exclusivity of the two reactions -/

/-- C1 (amended): if no identity is in both `likedBy` and `dislikedBy` and the
acting user occurs at most once in each of them, then after `toggleLike` or
`toggleDislike` (successful or not) still no identity is in both. -/
theorem toggle_preserves_exclusive (req : Request) (r : Review)
    (hex : Exclusive r)
    (hl : ∀ u, getUid req = some u → (normalize r.likedBy).count u ≤ 1)
    (hd : ∀ u, getUid req = some u → (normalize r.dislikedBy).count u ≤ 1) :
    ∀ r2, ((toggleLike req (some r)).doc = some r2 ∨
        (toggleDislike req (some r)).doc = some r2) → Exclusive r2 := by
  intro r2 h
  cases hu : getUid req with
  | none =>
    rw [toggleLike_noUid req _ hu, toggleDislike_noUid req _ hu] at h
    simp at h
    subst h; exact hex
  | some u =>
    cases hr : r.isRemoved with
    | true =>
      rw [toggleLike_removed req r u hu hr, toggleDislike_removed req r u hu hr] at h
      simp at h
      subst h; exact hex
    | false =>
      rcases h with h | h
      · by_cases hm : u ∈ normalize r.likedBy
        · rw [toggleLike_liked req r u hu hr hm] at h
          simp at h
          subst h
          intro v hv
          simp only [withReactions, normalize_arr] at hv
          exact hex v ⟨List.mem_of_mem_erase hv.1, hv.2⟩
        · rw [toggleLike_fresh req r u hu hr hm] at h
          simp at h
          subst h
          intro v hv
          simp only [withReactions, normalize_arr] at hv
          rcases List.mem_append.mp hv.1 with h1 | h1
          · exact hex v ⟨h1, List.mem_of_mem_erase hv.2⟩
          · have hvu : v = u := by simpa using h1
            subst hvu
            exact not_mem_erase_of_count_le_one _ _ (hd v hu) hv.2
      · by_cases hm : u ∈ normalize r.dislikedBy
        · rw [toggleDislike_disliked req r u hu hr hm] at h
          simp at h
          subst h
          intro v hv
          simp only [withReactions, normalize_arr] at hv
          exact hex v ⟨hv.1, List.mem_of_mem_erase hv.2⟩
        · rw [toggleDislike_fresh req r u hu hr hm] at h
          simp at h
          subst h
          intro v hv
          simp only [withReactions, normalize_arr] at hv
          rcases List.mem_append.mp hv.2 with h1 | h1
          · exact hex v ⟨List.mem_of_mem_erase hv.1, h1⟩
          · have hvu : v = u := by simpa using h1
            subst hvu
            exact not_mem_erase_of_count_le_one _ _ (hl v hu) hv.1

theorem toggle_preserves_exclusive_witness :
    Exclusive likedV_dislikedU ∧
    Exclusive { likedV_dislikedU with
      likedBy := .arr ["v", "u"], dislikedBy := .arr [], likes := 2, dislikes := 0 } :=
  have hex : Exclusive likedV_dislikedU := by
    intro v hv
    have h1 : v = "v" := by simpa [likedV_dislikedU, sampleReview, normalize] using hv.1
    have h2 : v = "u" := by simpa [likedV_dislikedU, sampleReview, normalize] using hv.2
    rw [h1] at h2
    exact absurd h2 (by decide)
  ⟨hex, toggle_preserves_exclusive (asUser "u") likedV_dislikedU hex
    (by
      intro v hv
      have h : getUid (asUser "u") = some "u" := by decide
      rw [h] at hv
      cases hv
      decide)
    (by
      intro v hv
      have h : getUid (asUser "u") = some "u" := by decide
      rw [h] at hv
      cases hv
      decide)
    _ (Or.inl (by decide))⟩

/-- C1 (as stated) fails when an array holds an id twice: with
`dislikedBy = ["u", "u"]` and `likedBy = []` no identity is in both arrays, yet
after `toggleLike` by `"u"` (HTTP 200) the id `"u"` is in both. -/
theorem toggleLike_breaks_exclusive_on_duplicates :
    Exclusive dupDisliked ∧
    toggleLike (asUser "u") (some dupDisliked) =
      ⟨200, .reaction true 1 false 1,
        some { dupDisliked with
          likedBy := .arr ["u"], dislikedBy := .arr ["u"], likes := 1, dislikes := 1 }⟩ ∧
    ¬ Exclusive { dupDisliked with
          likedBy := .arr ["u"], dislikedBy := .arr ["u"], likes := 1, dislikes := 1 } := by
  refine ⟨?_, by decide, ?_⟩
  · intro v hv
    simp [dupDisliked, sampleReview, normalize] at hv
  · intro h
    exact h "u" ⟨by decide, by decide⟩

/-! ## The save hook, field by field -/

theorem save_likedBy (now : Nat) (r : Review) : (save now r).likedBy = r.likedBy := by
  unfold save syncCounters
  dsimp only
  split <;> rfl

theorem save_dislikedBy (now : Nat) (r : Review) : (save now r).dislikedBy = r.dislikedBy := by
  unfold save syncCounters
  dsimp only
  split <;> rfl

theorem save_likes (now : Nat) (r : Review) : (save now r).likes = arrayLength r.likedBy := by
  unfold save syncCounters
  dsimp only
  split <;> rfl

theorem save_dislikes (now : Nat) (r : Review) :
    (save now r).dislikes = arrayLength r.dislikedBy := by
  unfold save syncCounters
  dsimp only
  split <;> rfl

theorem save_reports (now : Nat) (r : Review) : (save now r).reports = r.reports := by
  unfold save syncCounters
  dsimp only
  split <;> rfl

theorem save_comments (now : Nat) (r : Review) : (save now r).comments = r.comments := by
  unfold save syncCounters
  dsimp only
  split <;> rfl

theorem save_isRemoved (now : Nat) (r : Review) :
    (save now r).isRemoved = (r.isRemoved || decide (repCount r.reports ≥ 5)) := by
  unfold save syncCounters
  dsimp only
  cases hr : r.isRemoved <;> by_cases hc : repCount r.reports ≥ 5 <;> simp [hr, hc]

theorem distinctCount_arr_of_nodup (ids : List String) (h : ids.Nodup) :
    distinctCount (.arr ids) = ids.length := by
  simp [distinctCount, normalize, h.dedup]

theorem persist_save_inSync (now : Nat) (r : Review) : InSync (persist (save now r)) := by
  constructor
  · show (save now r).likes = arrayLength (save now r).likedBy
    rw [save_likes, save_likedBy]
  · show (save now r).dislikes = arrayLength (save now r).dislikedBy
    rw [save_dislikes, save_dislikedBy]

theorem hydrate_isRemoved (r : Review) : (hydrate r).isRemoved = r.isRemoved := rfl

theorem hydrate_reports (r : Review) : (hydrate r).reports = r.reports := rfl

theorem hydrate_comments (r : Review) : (hydrate r).comments = r.comments := rfl

theorem hydrate_authorId (r : Review) : (hydrate r).authorId = r.authorId := rfl

theorem hydrate_likedBy (r : Review) : (hydrate r).likedBy = hydrateIds r.likedBy := rfl

theorem hydrate_dislikedBy (r : Review) :
    (hydrate r).dislikedBy = hydrateIds r.dislikedBy := rfl

theorem hydrateIds_arr (f : IdField) (ids : List String) (h : f = .arr ids) :
    hydrateIds f = f := by
  subst h
  rfl

theorem storeAfterReport_likedBy (before : ReportsField) (r : Review) :
    (storeAfterReport before r).likedBy = r.likedBy := by
  cases before <;> rfl

theorem storeAfterReport_dislikedBy (before : ReportsField) (r : Review) :
    (storeAfterReport before r).dislikedBy = r.dislikedBy := by
  cases before <;> rfl

theorem storeAfterReport_likes (before : ReportsField) (r : Review) :
    (storeAfterReport before r).likes = r.likes := by
  cases before <;> rfl

theorem storeAfterReport_dislikes (before : ReportsField) (r : Review) :
    (storeAfterReport before r).dislikes = r.dislikes := by
  cases before <;> rfl

theorem storeAfterReport_isRemoved (before : ReportsField) (r : Review) :
    (storeAfterReport before r).isRemoved = r.isRemoved := by
  cases before <;> rfl

theorem storeAfterReport_arr (old : List Report) (r : Review) :
    (storeAfterReport (.arr old) r).reports = .arr old := rfl

theorem storeAfterReport_nonArray (before : ReportsField) (r : Review)
    (h : ∀ l, before ≠ .arr l) : storeAfterReport before r = persist r := by
  cases before with
  | arr l => exact absurd rfl (h l)
  | num n => rfl
  | other => rfl

theorem storeAfterReport_inSync (before : ReportsField) (now : Nat) (r : Review) :
    InSync (storeAfterReport before (save now r)) := by
  constructor
  · rw [storeAfterReport_likes, storeAfterReport_likedBy, save_likes, save_likedBy]
  · rw [storeAfterReport_dislikes, storeAfterReport_dislikedBy, save_dislikes,
      save_dislikedBy]

theorem toggleLike_success (req : Request) (doc : Option Review)
    (hs : (toggleLike req doc).status < 300) :
    ∃ r2 a b, (toggleLike req doc).doc = some r2 ∧ InSync r2 ∧
      (toggleLike req doc).body = .reaction a r2.likes b r2.dislikes := by
  unfold toggleLike at hs ⊢
  cases hu : getUid req with
  | none => simp [hu] at hs
  | some u =>
    cases doc with
    | none => simp [hu] at hs
    | some r =>
      cases hr : r.isRemoved with
      | true => simp [hu, hr] at hs
      | false =>
        simp only [hu, hr]
        exact ⟨_, _, _, rfl, ⟨rfl, rfl⟩, rfl⟩

theorem toggleDislike_success (req : Request) (doc : Option Review)
    (hs : (toggleDislike req doc).status < 300) :
    ∃ r2 a b, (toggleDislike req doc).doc = some r2 ∧ InSync r2 ∧
      (toggleDislike req doc).body = .reaction a r2.likes b r2.dislikes := by
  unfold toggleDislike at hs ⊢
  cases hu : getUid req with
  | none => simp [hu] at hs
  | some u =>
    cases doc with
    | none => simp [hu] at hs
    | some r =>
      cases hr : r.isRemoved with
      | true => simp [hu, hr] at hs
      | false =>
        simp only [hu, hr]
        exact ⟨_, _, _, rfl, ⟨rfl, rfl⟩, rfl⟩

theorem reportReview_success (now : Nat) (req : Request) (doc : Option Review)
    (hs : (reportReview now req doc).status < 300) :
    ∃ r2, (reportReview now req doc).doc = some r2 ∧ InSync r2 := by
  unfold reportReview at hs ⊢
  cases hu : getUid req with
  | none => simp [hu] at hs
  | some u =>
    by_cases ht : truthy req.reason = true
    · cases doc with
      | none => simp [hu, ht] at hs
      | some r =>
        by_cases hf : ((reportsArrayOf (hydrate r).reports).find?
            (fun rep => decide (rep.userId = u))).isSome = true
        · simp [hu, ht, hf] at hs
        · simp only [hu, ht, hf]
          exact ⟨_, rfl, storeAfterReport_inSync _ _ _⟩
    · simp [hu, ht] at hs

theorem addComment_success (now : Nat) (newId : String) (req : Request) (doc : Option Review)
    (hs : (addComment now newId req doc).status < 300) :
    ∃ r2, (addComment now newId req doc).doc = some r2 ∧ InSync r2 := by
  unfold addComment at hs ⊢
  by_cases hb : jsTrim ((jsOr req.text (some "")).getD "") = ""
  · simp [hb] at hs
  · cases doc with
    | none => simp [hb] at hs
    | some r =>
      cases hr : (hydrate r).isRemoved with
      | true => simp [hb, hr] at hs
      | false =>
        simp only [hb, hr]
        exact ⟨_, rfl, persist_save_inSync _ _⟩

theorem deleteComment_success (now : Nat) (req : Request) (doc : Option Review)
    (hs : (deleteComment now req doc).status < 300) :
    ∃ r2, (deleteComment now req doc).doc = some r2 ∧ InSync r2 := by
  unfold deleteComment at hs ⊢
  cases doc with
  | none => simp at hs
  | some r =>
    cases hf : (hydrate r).comments.find? (fun c => decide (c.id = req.commentId)) with
    | none => simp [hf] at hs
    | some c =>
      by_cases hg : (!truthy (getUid req) || decide (c.author ≠ (getUid req).getD "")) = true
      · simp only [hf, hg, ↓reduceIte] at hs
        simp at hs
      · simp only [hf, hg]
        exact ⟨_, rfl, persist_save_inSync _ _⟩

theorem updateReview_success (now : Nat) (req : Request) (doc : Option Review)
    (hs : (updateReview now req doc).status < 300) :
    ∃ r2, (updateReview now req doc).doc = some r2 ∧ InSync r2 := by
  unfold updateReview at hs ⊢
  cases doc with
  | none => simp at hs
  | some r =>
    by_cases hg : ((decide ((hydrate r).authorId ≠ "") &&
          decide ((hydrate r).authorId ≠ "anonymous")) &&
        (!truthy (getUid req) ||
          decide ((hydrate r).authorId ≠ (getUid req).getD ""))) = true
    · simp only [hg, ↓reduceIte] at hs
      simp at hs
    · simp only [hg]
      exact ⟨_, rfl, persist_save_inSync _ _⟩

/-! ## C2: the denormalised counters -/

/-- C2 (amended): after every successful mutating operation (`toggleLike`,
`toggleDislike`, and the saves of `reportReview`, `addComment`,
`deleteComment`, `updateReview`) the stored `likes` is the number of entries of
`likedBy` when that is an array and 0 otherwise, likewise `dislikes`; so they
are the numbers of distinct identities whenever the arrays hold no id twice;
and the counts returned by the toggles are the stored values. -/
theorem counters_equal_array_lengths (now : Nat) (newId : String) (req : Request)
    (doc : Option Review) (o : Outcome)
    (ho : o = toggleLike req doc ∨ o = toggleDislike req doc ∨
      o = reportReview now req doc ∨ o = addComment now newId req doc ∨
      o = deleteComment now req doc ∨ o = updateReview now req doc)
    (hs : o.status < 300) :
    ∃ r2, o.doc = some r2 ∧
      r2.likes = arrayLength r2.likedBy ∧ r2.dislikes = arrayLength r2.dislikedBy ∧
      (∀ ids, r2.likedBy = .arr ids → ids.Nodup → r2.likes = distinctCount r2.likedBy) ∧
      (∀ ids, r2.dislikedBy = .arr ids → ids.Nodup →
        r2.dislikes = distinctCount r2.dislikedBy) ∧
      ((o = toggleLike req doc ∨ o = toggleDislike req doc) →
        ∃ a b, o.body = .reaction a r2.likes b r2.dislikes) := by
  have key : ∃ r2, o.doc = some r2 ∧ InSync r2 ∧
      ((o = toggleLike req doc ∨ o = toggleDislike req doc) →
        ∃ a b, o.body = .reaction a r2.likes b r2.dislikes) := by
    rcases ho with h | h | h | h | h | h
    · subst h
      obtain ⟨r2, a, b, h1, h2, h3⟩ := toggleLike_success req doc hs
      exact ⟨r2, h1, h2, fun _ => ⟨a, b, h3⟩⟩
    · subst h
      obtain ⟨r2, a, b, h1, h2, h3⟩ := toggleDislike_success req doc hs
      exact ⟨r2, h1, h2, fun _ => ⟨a, b, h3⟩⟩
    · subst h
      obtain ⟨r2, h1, h2⟩ := reportReview_success now req doc hs
      refine ⟨r2, h1, h2, ?_⟩
      rintro (h | h)
      · obtain ⟨r3, a, b, h4, _, h6⟩ := toggleLike_success req doc (h ▸ hs)
        rw [← h] at h4 h6
        rw [h1] at h4
        cases h4
        exact ⟨a, b, h6⟩
      · obtain ⟨r3, a, b, h4, _, h6⟩ := toggleDislike_success req doc (h ▸ hs)
        rw [← h] at h4 h6
        rw [h1] at h4
        cases h4
        exact ⟨a, b, h6⟩
    · subst h
      obtain ⟨r2, h1, h2⟩ := addComment_success now newId req doc hs
      refine ⟨r2, h1, h2, ?_⟩
      rintro (h | h)
      · obtain ⟨r3, a, b, h4, _, h6⟩ := toggleLike_success req doc (h ▸ hs)
        rw [← h] at h4 h6
        rw [h1] at h4
        cases h4
        exact ⟨a, b, h6⟩
      · obtain ⟨r3, a, b, h4, _, h6⟩ := toggleDislike_success req doc (h ▸ hs)
        rw [← h] at h4 h6
        rw [h1] at h4
        cases h4
        exact ⟨a, b, h6⟩
    · subst h
      obtain ⟨r2, h1, h2⟩ := deleteComment_success now req doc hs
      refine ⟨r2, h1, h2, ?_⟩
      rintro (h | h)
      · obtain ⟨r3, a, b, h4, _, h6⟩ := toggleLike_success req doc (h ▸ hs)
        rw [← h] at h4 h6
        rw [h1] at h4
        cases h4
        exact ⟨a, b, h6⟩
      · obtain ⟨r3, a, b, h4, _, h6⟩ := toggleDislike_success req doc (h ▸ hs)
        rw [← h] at h4 h6
        rw [h1] at h4
        cases h4
        exact ⟨a, b, h6⟩
    · subst h
      obtain ⟨r2, h1, h2⟩ := updateReview_success now req doc hs
      refine ⟨r2, h1, h2, ?_⟩
      rintro (h | h)
      · obtain ⟨r3, a, b, h4, _, h6⟩ := toggleLike_success req doc (h ▸ hs)
        rw [← h] at h4 h6
        rw [h1] at h4
        cases h4
        exact ⟨a, b, h6⟩
      · obtain ⟨r3, a, b, h4, _, h6⟩ := toggleDislike_success req doc (h ▸ hs)
        rw [← h] at h4 h6
        rw [h1] at h4
        cases h4
        exact ⟨a, b, h6⟩
  obtain ⟨r2, h1, h2, h3⟩ := key
  refine ⟨r2, h1, h2.1, h2.2, ?_, ?_, h3⟩
  · intro ids hids hnd
    rw [h2.1, hids, distinctCount_arr_of_nodup ids hnd]
    rfl
  · intro ids hids hnd
    rw [h2.2, hids, distinctCount_arr_of_nodup ids hnd]
    rfl

theorem counters_equal_array_lengths_witness :
    ∃ r2, (toggleLike (asUser "u") (some likedV_dislikedU)).doc = some r2 ∧
      r2.likes = arrayLength r2.likedBy ∧ r2.dislikes = arrayLength r2.dislikedBy ∧
      (∀ ids, r2.likedBy = .arr ids → ids.Nodup → r2.likes = distinctCount r2.likedBy) ∧
      (∀ ids, r2.dislikedBy = .arr ids → ids.Nodup →
        r2.dislikes = distinctCount r2.dislikedBy) ∧
      ((toggleLike (asUser "u") (some likedV_dislikedU) =
          toggleLike (asUser "u") (some likedV_dislikedU) ∨
        toggleLike (asUser "u") (some likedV_dislikedU) =
          toggleDislike (asUser "u") (some likedV_dislikedU)) →
        ∃ a b, (toggleLike (asUser "u") (some likedV_dislikedU)).body =
          .reaction a r2.likes b r2.dislikes) :=
  counters_equal_array_lengths 0 "c1" (asUser "u") (some likedV_dislikedU)
    (toggleLike (asUser "u") (some likedV_dislikedU)) (Or.inl rfl) (by decide)

/-- C2 (as stated) fails when an array holds an id twice: with
`likedBy = ["a", "a"]`, `toggleLike` by `"u"` stores and returns `likes = 3`
while `likedBy = ["a", "a", "u"]` holds two distinct identities. -/
theorem likes_not_distinct_count_on_duplicates :
    ∃ r2, toggleLike (asUser "u") (some dupLiked) =
        ⟨200, .reaction true 3 false 0, some r2⟩ ∧
      r2.likedBy = .arr ["a", "a", "u"] ∧ r2.likes = 3 ∧
      distinctCount r2.likedBy = 2 ∧ r2.likes ≠ distinctCount r2.likedBy :=
  ⟨{ dupLiked with
      likedBy := .arr ["a", "a", "u"], dislikedBy := .arr [], likes := 3, dislikes := 0 },
    by decide, rfl, rfl, by decide, by decide⟩

/-! ## C3: what `toggleLike` does -/

/-- C3 (amended): for an existing, non-removed review and a user id `u` that
occurs at most once in `likedBy` and at most once in `dislikedBy`, `toggleLike`
answers 200 with the new counts and: if `u` was in `likedBy`, it is no longer
there, `dislikedBy` keeps its entries and `liked = false`; otherwise `u` is in
`likedBy`, not in `dislikedBy`, and `liked = true`. -/
theorem toggleLike_spec (req : Request) (r : Review) (u : String)
    (hu : getUid req = some u) (hr : r.isRemoved = false)
    (hl : (normalize r.likedBy).count u ≤ 1)
    (hd : (normalize r.dislikedBy).count u ≤ 1) :
    ∃ r2 liked, toggleLike req (some r) =
        ⟨200, .reaction liked r2.likes false r2.dislikes, some r2⟩ ∧
      r2.likes = (normalize r2.likedBy).length ∧
      r2.dislikes = (normalize r2.dislikedBy).length ∧
      (u ∈ normalize r.likedBy →
        liked = false ∧ u ∉ normalize r2.likedBy ∧
        normalize r2.dislikedBy = normalize r.dislikedBy) ∧
      (u ∉ normalize r.likedBy →
        liked = true ∧ u ∈ normalize r2.likedBy ∧ u ∉ normalize r2.dislikedBy) := by
  by_cases hm : u ∈ normalize r.likedBy
  · refine ⟨withReactions r ((normalize r.likedBy).erase u) (normalize r.dislikedBy), false,
      toggleLike_liked req r u hu hr hm, rfl, rfl, ?_, ?_⟩
    · intro _
      exact ⟨rfl, not_mem_erase_of_count_le_one _ _ hl, rfl⟩
    · intro h
      exact absurd hm h
  · refine ⟨withReactions r (normalize r.likedBy ++ [u]) ((normalize r.dislikedBy).erase u),
      true,
      toggleLike_fresh req r u hu hr hm, rfl, rfl, ?_, ?_⟩
    · intro h
      exact absurd h hm
    · intro _
      refine ⟨rfl, ?_, not_mem_erase_of_count_le_one _ _ hd⟩
      simp [withReactions, normalize_arr]

theorem toggleLike_spec_witness :
    ∃ r2 liked, toggleLike (asUser "u") (some likedV_dislikedU) =
        ⟨200, .reaction liked r2.likes false r2.dislikes, some r2⟩ ∧
      r2.likes = (normalize r2.likedBy).length ∧
      r2.dislikes = (normalize r2.dislikedBy).length ∧
      ("u" ∈ normalize likedV_dislikedU.likedBy →
        liked = false ∧ "u" ∉ normalize r2.likedBy ∧
        normalize r2.dislikedBy = normalize likedV_dislikedU.dislikedBy) ∧
      ("u" ∉ normalize likedV_dislikedU.likedBy →
        liked = true ∧ "u" ∈ normalize r2.likedBy ∧ "u" ∉ normalize r2.dislikedBy) :=
  toggleLike_spec (asUser "u") likedV_dislikedU "u" (by decide) (by decide)
    (by decide) (by decide)

/-- C3 (as stated) fails when `likedBy` holds the user twice: with
`likedBy = ["u", "u"]`, `toggleLike` by `"u"` answers `liked = false` and the
resulting `likedBy = ["u"]` still contains `"u"`. -/
theorem toggleLike_leaves_duplicate_like :
    "u" ∈ normalize likedTwiceByU.likedBy ∧
    ∃ r2, toggleLike (asUser "u") (some likedTwiceByU) =
        ⟨200, .reaction false 1 false 0, some r2⟩ ∧
      "u" ∈ normalize r2.likedBy :=
  ⟨by decide,
    { likedTwiceByU with
      likedBy := .arr ["u"], dislikedBy := .arr [], likes := 1, dislikes := 0 },
    by decide, by decide⟩

/-! ## C4: `toggleDislike` mirrors `toggleLike` -/

/-- C4: `toggleDislike` on a document equals `toggleLike` on the document with
`likedBy`/`dislikedBy` and `likes`/`dislikes` exchanged, followed by exchanging
them back in the stored document and exchanging `liked`/`likesCount` with
`disliked`/`dislikesCount` in the response; status and error bodies agree. -/
theorem toggleDislike_mirrors_toggleLike (req : Request) (doc : Option Review) :
    toggleDislike req doc = swapOutcome (toggleLike req (doc.map swapReview)) := by
  unfold toggleDislike toggleLike
  cases hu : getUid req with
  | none =>
    cases doc with
    | none => rfl
    | some r => simp [swapOutcome, swapBody, swapReview_swapReview]
  | some u =>
    cases doc with
    | none => rfl
    | some r =>
      rcases r with ⟨t, d, ra, im, vd, cu, ar, ds, pr, tg, ai, an, lb, db, l, dl, cs, rp, rem, rc, rat⟩
      cases rem <;> simp [swapOutcome, swapBody, swapReview]

/-! ## Lemmas on `withReactions` -/

theorem withReactions_liked (r : Review) (l d : List String) :
    normalize (withReactions r l d).likedBy = l := rfl

theorem withReactions_disliked (r : Review) (l d : List String) :
    normalize (withReactions r l d).dislikedBy = d := rfl

theorem withReactions_isRemoved (r : Review) (l d : List String) :
    (withReactions r l d).isRemoved = r.isRemoved := rfl

theorem withReactions_twice (r : Review) (l d l2 d2 : List String) :
    withReactions (withReactions r l d) l2 d2 = withReactions r l2 d2 := rfl

theorem erase_append_singleton (xs : List String) (x : String) (h : x ∉ xs) :
    (xs ++ [x]).erase x = xs := by
  rw [List.erase_append_right _ h]
  simp

theorem erase_of_not_mem (xs : List String) (x : String) (h : x ∉ xs) :
    xs.erase x = xs :=
  List.erase_of_not_mem h

/-! ## C5: liking twice -/

/-- C5 (amended): for an existing, non-removed review and a user `u` that is
not in `likedBy` before the calls, two consecutive `toggleLike` calls by `u`
both answer 200, leave `likedBy` with its original entries (so without `u`),
and leave `likes` equal to the number of entries `likedBy` had before the
calls, which is the original `likes` whenever that count was in sync. -/
theorem toggleLike_twice (req : Request) (r : Review) (u : String)
    (hu : getUid req = some u) (hr : r.isRemoved = false)
    (hm : u ∉ normalize r.likedBy) :
    ∃ r1 r2, (toggleLike req (some r)).status = 200 ∧
      (toggleLike req (some r)).doc = some r1 ∧
      (toggleLike req (some r1)).status = 200 ∧
      (toggleLike req (some r1)).doc = some r2 ∧
      u ∉ normalize r2.likedBy ∧
      normalize r2.likedBy = normalize r.likedBy ∧
      r2.likes = (normalize r.likedBy).length ∧
      (r.likes = (normalize r.likedBy).length → r2.likes = r.likes) := by
  have h1 := toggleLike_fresh req r u hu hr hm
  have hm1 : u ∈ normalize (withReactions r (normalize r.likedBy ++ [u])
      ((normalize r.dislikedBy).erase u)).likedBy := by
    rw [withReactions_liked]; simp
  have h2 := toggleLike_liked req _ u hu
    ((withReactions_isRemoved r _ _).trans hr) hm1
  rw [withReactions_liked, withReactions_disliked, withReactions_twice,
    erase_append_singleton _ _ hm] at h2
  refine ⟨withReactions r (normalize r.likedBy ++ [u]) ((normalize r.dislikedBy).erase u),
    withReactions r (normalize r.likedBy) ((normalize r.dislikedBy).erase u),
    ?_, ?_, ?_, ?_, ?_, ?_, ?_, ?_⟩
  · rw [h1]
  · rw [h1]
  · rw [h2]
  · rw [h2]
  · rw [withReactions_liked]; exact hm
  · rw [withReactions_liked]
  · rfl
  · intro h
    exact h.symm

theorem toggleLike_twice_witness :
    ∃ r1 r2, (toggleLike (asUser "u") (some likedV_dislikedU)).status = 200 ∧
      (toggleLike (asUser "u") (some likedV_dislikedU)).doc = some r1 ∧
      (toggleLike (asUser "u") (some r1)).status = 200 ∧
      (toggleLike (asUser "u") (some r1)).doc = some r2 ∧
      "u" ∉ normalize r2.likedBy ∧
      normalize r2.likedBy = normalize likedV_dislikedU.likedBy ∧
      r2.likes = (normalize likedV_dislikedU.likedBy).length ∧
      (likedV_dislikedU.likes = (normalize likedV_dislikedU.likedBy).length →
        r2.likes = likedV_dislikedU.likes) :=
  toggleLike_twice (asUser "u") likedV_dislikedU "u" (by decide) (by decide) (by decide)

/-- C5 (as stated) fails in two ways. When `u` already likes the review
(`likedBy = ["u"]`), the first call unlikes and the second likes again, so
`likedBy` contains `u` after the two calls. When the stored `likes` is stale
(`likes = 7` over an empty `likedBy`), the two calls leave `likes = 0`. -/
theorem toggleLike_twice_not_as_stated :
    (∃ r1 r2, toggleLike (asUser "u") (some likedByU) =
        ⟨200, .reaction false 0 false 0, some r1⟩ ∧
      toggleLike (asUser "u") (some r1) = ⟨200, .reaction true 1 false 0, some r2⟩ ∧
      "u" ∈ normalize r2.likedBy) ∧
    (∃ r1 r2, toggleLike (asUser "u") (some staleLikes) =
        ⟨200, .reaction true 1 false 0, some r1⟩ ∧
      toggleLike (asUser "u") (some r1) = ⟨200, .reaction false 0 false 0, some r2⟩ ∧
      staleLikes.likes = 7 ∧ r2.likes = 0) :=
  ⟨⟨withReactions likedByU [] [], withReactions likedByU ["u"] [],
      by decide, by decide, by decide⟩,
    ⟨withReactions staleLikes ["u"] [], withReactions staleLikes [] [],
      by decide, by decide, by decide, by decide⟩⟩

/-! ## C6: like, then dislike -/

/-- C6 (amended): for an existing, non-removed review and a user `u` that is
not in `likedBy` before the calls and occurs at most once in `dislikedBy`,
`toggleLike` by `u` followed by `toggleDislike` by `u` both answer 200, leave
`u` in `dislikedBy` and not in `likedBy`, and the likes count after the second
call is exactly one less than after the first. -/
theorem like_then_dislike (req : Request) (r : Review) (u : String)
    (hu : getUid req = some u) (hr : r.isRemoved = false)
    (hm : u ∉ normalize r.likedBy)
    (hd : (normalize r.dislikedBy).count u ≤ 1) :
    ∃ r1 r2,
      toggleLike req (some r) = ⟨200, .reaction true r1.likes false r1.dislikes, some r1⟩ ∧
      toggleDislike req (some r1) =
        ⟨200, .reaction false r2.likes true r2.dislikes, some r2⟩ ∧
      u ∈ normalize r2.dislikedBy ∧ u ∉ normalize r2.likedBy ∧
      r2.likes + 1 = r1.likes := by
  have h1 := toggleLike_fresh req r u hu hr hm
  have hm1 : u ∉ normalize (withReactions r (normalize r.likedBy ++ [u])
      ((normalize r.dislikedBy).erase u)).dislikedBy := by
    rw [withReactions_disliked]
    exact not_mem_erase_of_count_le_one _ _ hd
  have h2 := toggleDislike_fresh req _ u hu
    ((withReactions_isRemoved r _ _).trans hr) hm1
  rw [withReactions_liked, withReactions_disliked, withReactions_twice,
    erase_append_singleton _ _ hm] at h2
  refine ⟨withReactions r (normalize r.likedBy ++ [u]) ((normalize r.dislikedBy).erase u),
    withReactions r (normalize r.likedBy) ((normalize r.dislikedBy).erase u ++ [u]),
    h1, h2, ?_, ?_, ?_⟩
  · rw [withReactions_disliked]; simp
  · rw [withReactions_liked]; exact hm
  · simp [withReactions]

theorem like_then_dislike_witness :
    ∃ r1 r2,
      toggleLike (asUser "u") (some likedV_dislikedU) =
        ⟨200, .reaction true r1.likes false r1.dislikes, some r1⟩ ∧
      toggleDislike (asUser "u") (some r1) =
        ⟨200, .reaction false r2.likes true r2.dislikes, some r2⟩ ∧
      "u" ∈ normalize r2.dislikedBy ∧ "u" ∉ normalize r2.likedBy ∧
      r2.likes + 1 = r1.likes :=
  like_then_dislike (asUser "u") likedV_dislikedU "u" (by decide) (by decide)
    (by decide) (by decide)

/-- C6 (as stated) fails in two ways. When `u` already likes the review
(`likedBy = ["u"]`), the first call unlikes, and the likes count is 0 after
both calls, not one less. When `dislikedBy = ["u", "u"]`, the like removes one
entry and the dislike call removes the other, leaving `u` in `likedBy` and not
in `dislikedBy`. -/
theorem like_then_dislike_not_as_stated :
    (∃ r1 r2, toggleLike (asUser "u") (some likedByU) =
        ⟨200, .reaction false 0 false 0, some r1⟩ ∧
      toggleDislike (asUser "u") (some r1) = ⟨200, .reaction false 0 true 1, some r2⟩ ∧
      r1.likes = 0 ∧ r2.likes = 0 ∧ r2.likes + 1 ≠ r1.likes) ∧
    (∃ r1 r2, toggleLike (asUser "u") (some dupDisliked) =
        ⟨200, .reaction true 1 false 1, some r1⟩ ∧
      toggleDislike (asUser "u") (some r1) = ⟨200, .reaction false 1 false 0, some r2⟩ ∧
      "u" ∈ normalize r2.likedBy ∧ "u" ∉ normalize r2.dislikedBy) :=
  ⟨⟨withReactions likedByU [] [], withReactions likedByU [] ["u"],
      by decide, by decide, by decide, by decide, by decide⟩,
    ⟨withReactions dupDisliked ["u"] ["u"], withReactions dupDisliked ["u"] [],
      by decide, by decide, by decide, by decide⟩⟩

/-! ## C7: the failures of the toggles -/

theorem getUid_eq_none_iff (req : Request) :
    getUid req = none ↔ truthy req.userId = false ∧ truthy req.xUserId = false := by
  unfold getUid jsOr
  cases h1 : truthy req.userId <;> cases h2 : truthy req.xUserId <;> simp [h1, h2]
  · intro h
    rw [h] at h2
    simp [truthy] at h2
  · intro h
    rw [h] at h1
    simp [truthy] at h1
  · intro h
    rw [h] at h1
    simp [truthy] at h1

/-- C7: when no user id is supplied (neither `req.userId` nor the `X-User-Id`
header is a non-empty string) both toggles answer 400; when one is supplied and
the review does not exist or has `isRemoved = true` both answer 404; in each of
these cases the stored document is left as it was. -/
theorem toggle_failures (req : Request) (doc : Option Review)
    (h : (truthy req.userId = false ∧ truthy req.xUserId = false) ∨
      doc = none ∨ ∃ r, doc = some r ∧ r.isRemoved = true) :
    (toggleLike req doc).doc = doc ∧ (toggleDislike req doc).doc = doc ∧
    ((truthy req.userId = false ∧ truthy req.xUserId = false) →
      toggleLike req doc = ⟨400, .message "Missing user id", doc⟩ ∧
      toggleDislike req doc = ⟨400, .message "Missing user id", doc⟩) ∧
    (¬ (truthy req.userId = false ∧ truthy req.xUserId = false) →
      toggleLike req doc = ⟨404, .message "Review not found", doc⟩ ∧
      toggleDislike req doc = ⟨404, .message "Review not found", doc⟩) := by
  cases hu : getUid req with
  | none =>
    have hn := (getUid_eq_none_iff req).mp hu
    rw [toggleLike_noUid req doc hu, toggleDislike_noUid req doc hu]
    exact ⟨rfl, rfl, fun _ => ⟨rfl, rfl⟩, fun hc => absurd hn hc⟩
  | some u =>
    have hn : ¬ (truthy req.userId = false ∧ truthy req.xUserId = false) := by
      intro hc
      rw [(getUid_eq_none_iff req).mpr hc] at hu
      cases hu
    rcases h with h | h | ⟨r, h, hr⟩
    · exact absurd h hn
    · subst h
      have e1 : toggleLike req none = ⟨404, .message "Review not found", none⟩ := by
        simp [toggleLike, hu]
      have e2 : toggleDislike req none = ⟨404, .message "Review not found", none⟩ := by
        simp [toggleDislike, hu]
      rw [e1, e2]
      exact ⟨rfl, rfl, fun hc => absurd hc hn, fun _ => ⟨rfl, rfl⟩⟩
    · subst h
      rw [toggleLike_removed req r u hu hr, toggleDislike_removed req r u hu hr]
      exact ⟨rfl, rfl, fun hc => absurd hc hn, fun _ => ⟨rfl, rfl⟩⟩

theorem toggle_failures_witness :
    (toggleLike {} (some sampleReview)).doc = some sampleReview ∧
    (toggleDislike {} (some sampleReview)).doc = some sampleReview ∧
    ((truthy ({} : Request).userId = false ∧ truthy ({} : Request).xUserId = false) →
      toggleLike {} (some sampleReview) =
        ⟨400, .message "Missing user id", some sampleReview⟩ ∧
      toggleDislike {} (some sampleReview) =
        ⟨400, .message "Missing user id", some sampleReview⟩) ∧
    (¬ (truthy ({} : Request).userId = false ∧ truthy ({} : Request).xUserId = false) →
      toggleLike {} (some sampleReview) =
        ⟨404, .message "Review not found", some sampleReview⟩ ∧
      toggleDislike {} (some sampleReview) =
        ⟨404, .message "Review not found", some sampleReview⟩) :=
  toggle_failures {} (some sampleReview) (Or.inl ⟨by decide, by decide⟩)

/-! ## `reportReview`, case by case -/

theorem reportReview_conflict (now : Nat) (req : Request) (r : Review) (u : String)
    (hu : getUid req = some u) (ht : truthy req.reason = true)
    (hrep : ∃ rep ∈ reportsArrayOf r.reports, rep.userId = u) :
    reportReview now req (some r) =
      ⟨409, .message "You already reported this post", some r⟩ := by
  have hf : ((reportsArrayOf (hydrate r).reports).find?
      (fun rep => decide (rep.userId = u))).isSome = true := by
    rw [List.find?_isSome]
    obtain ⟨rep, hmem, he⟩ := hrep
    exact ⟨rep, hmem, by simpa using he⟩
  simp only [reportReview, hu, ht, hf]
  rfl

theorem reportReview_ok (now : Nat) (req : Request) (r : Review) (u : String)
    (hu : getUid req = some u) (ht : truthy req.reason = true)
    (hnew : ∀ rep ∈ reportsArrayOf r.reports, rep.userId ≠ u) :
    reportReview now req (some r) =
      ⟨200,
        .report (reportsArrayOf r.reports ++ [(⟨u, req.reason.getD "", now⟩ : Report)]).length
          (r.isRemoved ||
            decide ((reportsArrayOf r.reports ++ [(⟨u, req.reason.getD "", now⟩ : Report)]).length ≥ 5)),
        some (storeAfterReport r.reports (save now { hydrate r with
          reports := .arr (reportsArrayOf r.reports ++ [(⟨u, req.reason.getD "", now⟩ : Report)]) }))⟩ := by
  have hf : ((reportsArrayOf (hydrate r).reports).find?
      (fun rep => decide (rep.userId = u))).isSome = false := by
    rw [Bool.eq_false_iff]
    intro hc
    rw [List.find?_isSome] at hc
    obtain ⟨rep, hmem, he⟩ := hc
    exact hnew rep hmem (by simpa using he)
  simp only [reportReview, hu, ht, hf, push]
  rw [save_isRemoved]
  rfl

theorem reportReasons_truthy (req : Request)
    (hv : ∃ s ∈ reportReasons, req.reason = some s) : truthy req.reason = true := by
  obtain ⟨s, hs, he⟩ := hv
  rw [he]
  simp only [reportReasons, List.mem_cons, List.mem_singleton, List.not_mem_nil, or_false] at hs
  rcases hs with h | h | h | h | h | h <;> subst h <;> decide

theorem storeAfterReport_save_isRemoved (before : ReportsField) (now : Nat) (r : Review)
    (hr : r.isRemoved = true) : (storeAfterReport before (save now r)).isRemoved = true := by
  rw [storeAfterReport_isRemoved, save_isRemoved, hr]
  rfl

/-! ## C8: reports with a reason outside the enumeration -/

/-- C8 (evaluation at the failing input): the reason `"bogus"` is not one of
the enumerated reasons and `reportChecks` records `invalid reason`, yet the
route answers 200 with `reportsCount = 1`, where the claim has 400:
`reportReview` never reads the validation result. On the review with
`reports = []` the stored document stays as it was; on a review whose stored
`reports` is a legacy count the report with the unlisted reason is stored. -/
theorem reportRoute_accepts_unlisted_reason :
    "bogus" ∉ reportReasons ∧
    reportChecks bogusReport = ["invalid reason"] ∧
    reportRoute 7 bogusReport (some sampleReview) =
      ⟨200, .report 1 false, some sampleReview⟩ ∧
    reportRoute 7 bogusReport (some sevenLegacyReports) =
      ⟨200, .report 1 false,
        some { sampleReview with reports := .arr [⟨"u1", "bogus", 7⟩] }⟩ := by
  refine ⟨by decide, by decide, by decide, by decide⟩

/-! ## C9: a second report by the same user -/

/-- C9 (evaluation at the failing input): on a review whose `reports` is the
empty array, the report of `"u5"` with the reason `spam` answers 200 and leaves
the stored document as it was, because the array pushed into is not written;
the same report sent again therefore answers 200 again, where the claim has
409. Only a report by `"u5"` that is in the stored array is answered with 409,
the document untouched. -/
theorem report_again_answers_200 :
    reportReview 9 spamReportByU5 (some sampleReview) =
      ⟨200, .report 1 false, some sampleReview⟩ ∧
    reportReview 10 spamReportByU5 (some sampleReview) =
      ⟨200, .report 1 false, some sampleReview⟩ ∧
    reportReview 10 spamReportByU5 (some reportedByU5) =
      ⟨409, .message "You already reported this post", some reportedByU5⟩ := by
  refine ⟨by decide, by decide, by decide⟩

/-! ## C10: a successful report and the removal threshold -/

/-- C10 (evaluation at the failing input): on a non-removed review with four
reports, the report of `"u5"` answers 200 with `reportsCount = 5` and
`removed = true` and stores `isRemoved = true`, as the claim has it, but the
stored `reports` are still the four earlier ones: no report is appended. -/
theorem fifth_report_not_stored :
    reportedFourTimes.reports = .arr fourReports ∧ fourReports.length = 4 ∧
    reportedFourTimes.isRemoved = false ∧
    reportReview 9 spamReportByU5 (some reportedFourTimes) =
      ⟨200, .report 5 true, some removedWithFourReports⟩ ∧
    removedWithFourReports.reports = .arr fourReports ∧
    removedWithFourReports.isRemoved = true := by
  refine ⟨rfl, rfl, rfl, by decide, rfl, rfl⟩

/-! ## C11: `isRemoved` is never cleared -/

theorem persist_save_isRemoved (now : Nat) (r : Review) (hr : r.isRemoved = true) :
    (persist (save now r)).isRemoved = true := by
  show (save now r).isRemoved = true
  rw [save_isRemoved, hr]
  rfl

theorem toggleLike_keeps_removed (req : Request) (r : Review) (hr : r.isRemoved = true) :
    (toggleLike req (some r)).doc = some r := by
  cases hu : getUid req with
  | none => rw [toggleLike_noUid req _ hu]
  | some u => rw [toggleLike_removed req r u hu hr]

theorem toggleDislike_keeps_removed (req : Request) (r : Review) (hr : r.isRemoved = true) :
    (toggleDislike req (some r)).doc = some r := by
  cases hu : getUid req with
  | none => rw [toggleDislike_noUid req _ hu]
  | some u => rw [toggleDislike_removed req r u hu hr]

theorem reportReview_keeps_removed (now : Nat) (req : Request) (r : Review)
    (hr : r.isRemoved = true) :
    ∃ r2, (reportReview now req (some r)).doc = some r2 ∧ r2.isRemoved = true := by
  unfold reportReview
  cases hu : getUid req with
  | none => exact ⟨r, rfl, hr⟩
  | some u =>
    by_cases ht : truthy req.reason = true
    · by_cases hf : ((reportsArrayOf (hydrate r).reports).find?
          (fun rep => decide (rep.userId = u))).isSome = true
      · simp only [ht, hf]
        exact ⟨r, rfl, hr⟩
      · simp only [ht, hf]
        exact ⟨_, rfl, storeAfterReport_save_isRemoved _ now _ hr⟩
    · simp only [ht]
      exact ⟨r, rfl, hr⟩

theorem addComment_keeps_removed (now : Nat) (newId : String) (req : Request) (r : Review)
    (hr : r.isRemoved = true) :
    (addComment now newId req (some r)).doc = some r := by
  have hr2 : (hydrate r).isRemoved = true := hr
  unfold addComment
  by_cases hb : jsTrim ((jsOr req.text (some "")).getD "") = ""
  · simp only [hb, if_true]
  · simp only [hb, hr2, if_true, if_false]

theorem deleteComment_keeps_removed (now : Nat) (req : Request) (r : Review)
    (hr : r.isRemoved = true) :
    ∃ r2, (deleteComment now req (some r)).doc = some r2 ∧ r2.isRemoved = true := by
  unfold deleteComment
  cases hf : (hydrate r).comments.find? (fun c => decide (c.id = req.commentId)) with
  | none => exact ⟨r, by simp only [hf], hr⟩
  | some c =>
    by_cases hg : (!truthy (getUid req) || decide (c.author ≠ (getUid req).getD "")) = true
    · simp only [hf, hg, if_true]
      exact ⟨r, rfl, hr⟩
    · simp only [hf, hg]
      exact ⟨_, rfl, persist_save_isRemoved now _ hr⟩

theorem applyUpdate_isRemoved (b : UpdateBody) (r : Review) :
    (applyUpdate b r).isRemoved = r.isRemoved := rfl

theorem updateReview_keeps_removed (now : Nat) (req : Request) (r : Review)
    (hr : r.isRemoved = true) :
    ∃ r2, (updateReview now req (some r)).doc = some r2 ∧ r2.isRemoved = true := by
  unfold updateReview
  by_cases hg : ((decide ((hydrate r).authorId ≠ "") &&
        decide ((hydrate r).authorId ≠ "anonymous")) &&
      (!truthy (getUid req) || decide ((hydrate r).authorId ≠ (getUid req).getD ""))) = true
  · simp only [hg, if_true]
    exact ⟨r, rfl, hr⟩
  · simp only [hg]
    exact ⟨_, rfl, persist_save_isRemoved now _
      ((applyUpdate_isRemoved _ (hydrate r)).trans hr)⟩

/-- C11: for a review with `isRemoved = true`, the document left by
`toggleLike`, `toggleDislike`, `reportReview`, `addComment`, `deleteComment` and
`updateReview` still has `isRemoved = true`, and so has the result of the
`syncCounters` hook; a report by a user who has not yet reported it answers 200
with `removed = true` and leaves `isRemoved = true`. -/
theorem isRemoved_monotone (now : Nat) (newId : String) (req : Request) (r : Review)
    (hr : r.isRemoved = true) :
    (∀ o, (o = toggleLike req (some r) ∨ o = toggleDislike req (some r) ∨
        o = reportReview now req (some r) ∨ o = addComment now newId req (some r) ∨
        o = deleteComment now req (some r) ∨ o = updateReview now req (some r)) →
      ∃ r2, o.doc = some r2 ∧ r2.isRemoved = true) ∧
    (syncCounters now r).isRemoved = true ∧
    (∀ u, getUid req = some u → truthy req.reason = true →
      (∀ rep ∈ reportsArrayOf r.reports, rep.userId ≠ u) →
      ∃ r2, reportReview now req (some r) =
          ⟨200, .report ((reportsArrayOf r.reports).length + 1) true, some r2⟩ ∧
        r2.isRemoved = true) := by
  refine ⟨?_, ?_, ?_⟩
  · intro o ho
    rcases ho with h | h | h | h | h | h <;> subst h
    · exact ⟨r, toggleLike_keeps_removed req r hr, hr⟩
    · exact ⟨r, toggleDislike_keeps_removed req r hr, hr⟩
    · exact reportReview_keeps_removed now req r hr
    · exact ⟨r, addComment_keeps_removed now newId req r hr, hr⟩
    · exact deleteComment_keeps_removed now req r hr
    · exact updateReview_keeps_removed now req r hr
  · have h := save_isRemoved now r
    unfold save at h
    rw [h, hr]
    rfl
  · intro u hu ht hnew
    have hok := reportReview_ok now req r u hu ht hnew
    refine ⟨_, ?_, storeAfterReport_save_isRemoved r.reports now { hydrate r with
      reports := .arr (reportsArrayOf r.reports ++ [⟨u, req.reason.getD "", now⟩]) } hr⟩
    rw [hok, hr]
    simp only [List.length_append, List.length_singleton, Bool.true_or]

theorem isRemoved_monotone_witness :
    (∀ o, (o = toggleLike spamReportByU5 (some removedWithFourReports) ∨
        o = toggleDislike spamReportByU5 (some removedWithFourReports) ∨
        o = reportReview 9 spamReportByU5 (some removedWithFourReports) ∨
        o = addComment 9 "c1" spamReportByU5 (some removedWithFourReports) ∨
        o = deleteComment 9 spamReportByU5 (some removedWithFourReports) ∨
        o = updateReview 9 spamReportByU5 (some removedWithFourReports)) →
      ∃ r2, o.doc = some r2 ∧ r2.isRemoved = true) ∧
    (syncCounters 9 removedWithFourReports).isRemoved = true ∧
    (∀ u, getUid spamReportByU5 = some u → truthy spamReportByU5.reason = true →
      (∀ rep ∈ reportsArrayOf removedWithFourReports.reports, rep.userId ≠ u) →
      ∃ r2, reportReview 9 spamReportByU5 (some removedWithFourReports) =
          ⟨200, .report ((reportsArrayOf removedWithFourReports.reports).length + 1) true,
            some r2⟩ ∧
        r2.isRemoved = true) :=
  isRemoved_monotone 9 "c1" spamReportByU5 removedWithFourReports (by decide)

/-! ## C12: at most one report per user -/

theorem reportReview_doc_cases (now : Nat) (req : Request) (r : Review) :
    (reportReview now req (some r)).doc = some r ∨
    ∃ u, getUid req = some u ∧ (∀ rep ∈ reportsArrayOf r.reports, rep.userId ≠ u) ∧
      (reportReview now req (some r)).doc =
        some (storeAfterReport r.reports (save now { hydrate r with
          reports := .arr (reportsArrayOf r.reports ++ [⟨u, req.reason.getD "", now⟩]) })) := by
  cases hu : getUid req with
  | none =>
    left
    simp only [reportReview, hu]
  | some u =>
    by_cases ht : truthy req.reason = true
    · by_cases hrep : ∃ rep ∈ reportsArrayOf r.reports, rep.userId = u
      · left
        rw [reportReview_conflict now req r u hu ht hrep]
      · right
        have hnew : ∀ rep ∈ reportsArrayOf r.reports, rep.userId ≠ u := by
          intro rep hmem he
          exact hrep ⟨rep, hmem, he⟩
        refine ⟨u, rfl, hnew, ?_⟩
        rw [reportReview_ok now req r u hu ht hnew]
    · left
      simp only [reportReview, hu, ht]
      rfl

/-- C12: if the reports of a review hold no two reports with the same
`userId`, then after any `reportReview` call, successful or failed, the stored
reports still hold no two reports with the same `userId`. -/
theorem one_report_per_user (now : Nat) (req : Request) (r : Review)
    (h : OneReportPerUser r) :
    ∃ r2, (reportReview now req (some r)).doc = some r2 ∧ OneReportPerUser r2 := by
  rcases reportReview_doc_cases now req r with hd | ⟨u, _, hnew, hd⟩
  · exact ⟨r, hd, h⟩
  · refine ⟨_, hd, ?_⟩
    unfold OneReportPerUser at h ⊢
    cases hrep : r.reports with
    | arr old =>
      rw [hrep] at h
      exact h
    | num n =>
      show ((reportsArrayOf (save now _).reports).map Report.userId).Nodup
      rw [save_reports]
      exact List.nodup_singleton _
    | other =>
      show ((reportsArrayOf (save now _).reports).map Report.userId).Nodup
      rw [save_reports]
      exact List.nodup_singleton _

theorem one_report_per_user_witness :
    ∃ r2, (reportReview 9 spamReportByU5 (some reportedFourTimes)).doc = some r2 ∧
      OneReportPerUser r2 :=
  one_report_per_user 9 spamReportByU5 reportedFourTimes
    (by unfold OneReportPerUser; decide)

/-! ## `addComment`, case by case -/

theorem jsOr_getD_empty (t : Option String) : (jsOr t (some "")).getD "" = t.getD "" := by
  cases t with
  | none => rfl
  | some s =>
    by_cases hs : s = ""
    · subst hs; rfl
    · simp [jsOr, truthy, hs]

theorem getUid_ne_empty (req : Request) (u : String) (h : getUid req = some u) : u ≠ "" := by
  unfold getUid jsOr at h
  cases h1 : truthy req.userId with
  | true =>
    simp only [h1, if_true] at h
    rw [h] at h1
    simpa [truthy] using h1
  | false =>
    cases h2 : truthy req.xUserId with
    | true =>
      simp only [h1, h2, if_true, Bool.false_eq_true, if_false] at h
      rw [h] at h2
      simpa [truthy] using h2
    | false =>
      simp [h1, h2] at h

theorem jsOr_getUid_anonymous (req : Request) :
    (jsOr (getUid req) (some "anonymous")).getD "anonymous" = (getUid req).getD "anonymous" := by
  cases hu : getUid req with
  | none => rfl
  | some u =>
    have hne := getUid_ne_empty req u hu
    simp [jsOr, truthy, hne]

theorem addComment_noText (now : Nat) (newId : String) (req : Request) (doc : Option Review)
    (hb : jsTrim (req.text.getD "") = "") :
    addComment now newId req doc = ⟨400, .message "Text required", doc⟩ := by
  unfold addComment
  simp only [jsOr_getD_empty, hb, if_true]

theorem addComment_missing (now : Nat) (newId : String) (req : Request)
    (hb : jsTrim (req.text.getD "") ≠ "") :
    addComment now newId req none = ⟨404, .message "Review not found", none⟩ := by
  unfold addComment
  simp only [jsOr_getD_empty, hb, if_false]

theorem addComment_removed (now : Nat) (newId : String) (req : Request) (r : Review)
    (hb : jsTrim (req.text.getD "") ≠ "") (hr : r.isRemoved = true) :
    addComment now newId req (some r) = ⟨404, .message "Review not found", some r⟩ := by
  have hr2 : (hydrate r).isRemoved = true := hr
  unfold addComment
  simp only [jsOr_getD_empty, hb, hr2, if_true, if_false]

theorem addComment_ok (now : Nat) (newId : String) (req : Request) (r : Review)
    (hb : jsTrim (req.text.getD "") ≠ "") (hr : r.isRemoved = false) :
    addComment now newId req (some r) =
      ⟨201, .comment (commentOf now newId req),
        some (persist (save now { hydrate r with
          comments := r.comments ++ [commentOf now newId req] }))⟩ := by
  have hr2 : (hydrate r).isRemoved = false := hr
  unfold addComment
  simp only [jsOr_getD_empty, jsOr_getUid_anonymous, hb, hr2, if_false, push, save_comments,
    List.getLastD_concat, commentOf, hydrate_comments]
  simp

/-! ## C13: the failures of `addComment` -/

theorem text_blank_iff (req : Request) :
    jsTrim (req.text.getD "") = "" ↔
      (req.text = none ∨ ∃ s, req.text = some s ∧ jsTrim s = "") := by
  cases ht : req.text with
  | none =>
    simp only [Option.getD_none, true_or, iff_true]
    decide
  | some s =>
    simp

/-- C13: `addComment` answers 400 exactly when the text is missing or trims to
the empty string; when the text is non-empty after trimming it answers 404
exactly when the review does not exist or has `isRemoved = true`; and whenever
it answers 400 or 404 the stored document, with its comments, is the one it was
given. -/
theorem addComment_failures (now : Nat) (newId : String) (req : Request)
    (doc : Option Review) :
    ((addComment now newId req doc).status = 400 ↔
      (req.text = none ∨ ∃ s, req.text = some s ∧ jsTrim s = "")) ∧
    ((∃ s, req.text = some s ∧ jsTrim s ≠ "") →
      ((addComment now newId req doc).status = 404 ↔
        (doc = none ∨ ∃ r, doc = some r ∧ r.isRemoved = true))) ∧
    (((addComment now newId req doc).status = 400 ∨
        (addComment now newId req doc).status = 404) →
      (addComment now newId req doc).doc = doc) := by
  by_cases hb : jsTrim (req.text.getD "") = ""
  · have hblank := (text_blank_iff req).mp hb
    rw [addComment_noText now newId req doc hb]
    refine ⟨⟨fun _ => hblank, fun _ => rfl⟩, ?_, fun _ => rfl⟩
    rintro ⟨s, hs, hne⟩
    rw [hs] at hb
    exact absurd hb hne
  · have hnb : ¬ (req.text = none ∨ ∃ s, req.text = some s ∧ jsTrim s = "") :=
      fun h => hb ((text_blank_iff req).mpr h)
    cases doc with
    | none =>
      rw [addComment_missing now newId req hb]
      refine ⟨⟨fun h => by simp at h, fun h => absurd h hnb⟩, ?_, fun _ => rfl⟩
      intro _
      exact ⟨fun _ => Or.inl rfl, fun _ => rfl⟩
    | some r =>
      cases hr : r.isRemoved with
      | true =>
        rw [addComment_removed now newId req r hb hr]
        refine ⟨⟨fun h => by simp at h, fun h => absurd h hnb⟩, ?_, fun _ => rfl⟩
        intro _
        exact ⟨fun _ => Or.inr ⟨r, rfl, hr⟩, fun _ => rfl⟩
      | false =>
        rw [addComment_ok now newId req r hb hr]
        refine ⟨⟨fun h => by simp at h, fun h => absurd h hnb⟩, ?_, ?_⟩
        · intro _
          refine ⟨fun h => by simp at h, ?_⟩
          rintro (h | ⟨r2, h, hr2⟩)
          · simp at h
          · simp only [Option.some.injEq] at h
            subst h
            rw [hr] at hr2
            simp at hr2
        · rintro (h | h) <;> simp at h

/-! ## Lemmas on `jsTrim` -/

theorem jsTrim_data (s : String) :
    (jsTrim s).data = List.rdropWhile isJsSpace (s.data.dropWhile isJsSpace) := rfl

theorem dropWhile_rdropWhile_dropWhile (p : Char → Bool) (l : List Char) :
    List.dropWhile p (List.rdropWhile p (List.dropWhile p l)) =
      List.rdropWhile p (List.dropWhile p l) := by
  obtain ⟨t, ht⟩ := List.rdropWhile_prefix p (List.dropWhile p l)
  have hhead := List.head?_dropWhile_not p l
  generalize List.rdropWhile p (List.dropWhile p l) = u at ht ⊢
  cases u with
  | nil => rfl
  | cons x xs =>
    rw [← ht] at hhead
    simp only [List.cons_append, List.head?_cons] at hhead
    simp [List.dropWhile, hhead]

theorem jsTrim_idem (s : String) : jsTrim (jsTrim s) = jsTrim s := by
  have h : (jsTrim (jsTrim s)).data = (jsTrim s).data := by
    rw [jsTrim_data (jsTrim s), jsTrim_data s, dropWhile_rdropWhile_dropWhile,
      List.rdropWhile_idempotent]
  exact String.ext h

/-! ## C14: what `addComment` appends -/

theorem sliceUnits_eq_take (n : Nat) (cs : List Char) (h : ∀ c ∈ cs, c.toNat < 65536) :
    sliceUnits n cs = cs.take n := by
  induction cs generalizing n with
  | nil => simp [sliceUnits]
  | cons c cs ih =>
    have hc : utf16Units c = 1 := by
      unfold utf16Units
      rw [if_pos (h c (List.mem_cons_self c cs))]
    have hcs : ∀ d ∈ cs, d.toNat < 65536 := fun d hd => h d (List.mem_cons_of_mem c hd)
    cases n with
    | zero => simp [sliceUnits, hc]
    | succ m => simp [sliceUnits, hc, ih m hcs]

theorem jsSlice_eq_take (n : Nat) (s : String) (h : ∀ c ∈ s.data, c.toNat < 65536) :
    jsSlice n s = s.take n := by
  rw [String.take_eq]
  unfold jsSlice
  rw [sliceUnits_eq_take n s.data h]

/-- C14 (amended): when the text is non-empty after trimming, the review
exists and is not removed, and the name is not cut inside a character of two
code units, `addComment` answers 201, appends exactly one comment at the end of
the comments and leaves the earlier ones as they were; the returned comment is
the appended one; its author is the user id with surrounding white space
trimmed (the id itself when it has none), or `"anonymous"` when no id is
supplied; its text is the trimmed text; its `authorName` is the first 60 UTF-16
code units of the name with surrounding white space trimmed (for a name of
characters of the Basic Multilingual Plane: its first 60 characters, trimmed),
or absent when no name is supplied. -/
theorem addComment_appends (now : Nat) (newId : String) (req : Request) (r : Review)
    (hb : jsTrim (req.text.getD "") ≠ "") (hr : r.isRemoved = false)
    (_hcut : cutsInsideChar 60 (req.name.getD "").data = false) :
    ∃ c r2, addComment now newId req (some r) = ⟨201, .comment c, some r2⟩ ∧
      r2.comments = r.comments ++ [c] ∧
      c.id = newId ∧ c.createdAt = now ∧
      c.text = jsTrim (req.text.getD "") ∧
      (getUid req = none → c.author = "anonymous") ∧
      (∀ u, getUid req = some u → c.author = jsTrim u ∧ (jsTrim u = u → c.author = u)) ∧
      (truthy req.name = false → c.authorName = none) ∧
      (truthy req.name = true →
        c.authorName = some (jsTrim (jsSlice 60 (req.name.getD "")))) ∧
      (truthy req.name = true → (∀ ch ∈ (req.name.getD "").data, ch.toNat < 65536) →
        c.authorName = some (jsTrim ((req.name.getD "").take 60))) := by
  have hname : truthy req.name = true →
      (commentOf now newId req).authorName =
        some (jsTrim (jsSlice 60 (req.name.getD ""))) := by
    intro hn
    show Option.map jsTrim (if truthy req.name = true then _ else none) = _
    rw [hn]
    rfl
  refine ⟨commentOf now newId req,
    persist (save now { hydrate r with comments := r.comments ++ [commentOf now newId req] }),
    addComment_ok now newId req r hb hr, ?_, rfl, rfl, ?_, ?_, ?_, ?_, hname, ?_⟩
  · show (save now _).comments = _
    rw [save_comments]
  · show jsTrim (jsTrim (req.text.getD "")) = _
    rw [jsTrim_idem]
  · intro hu
    show jsTrim ((getUid req).getD "anonymous") = _
    rw [hu]
    decide
  · intro u hu
    have h : (commentOf now newId req).author = jsTrim u := by
      show jsTrim ((getUid req).getD "anonymous") = _
      rw [hu]
      rfl
    exact ⟨h, fun hu2 => h.trans hu2⟩
  · intro hn
    show Option.map jsTrim (if truthy req.name = true then _ else none) = none
    rw [hn]
    rfl
  · intro hn hbmp
    rw [hname hn, jsSlice_eq_take 60 _ hbmp]

set_option maxRecDepth 20000 in
theorem addComment_appends_witness :
    ∃ c r2, addComment 5 "c1" namedComment (some sampleReview) =
        ⟨201, .comment c, some r2⟩ ∧
      r2.comments = sampleReview.comments ++ [c] ∧
      c.id = "c1" ∧ c.createdAt = 5 ∧
      c.text = jsTrim (namedComment.text.getD "") ∧
      (getUid namedComment = none → c.author = "anonymous") ∧
      (∀ u, getUid namedComment = some u →
        c.author = jsTrim u ∧ (jsTrim u = u → c.author = u)) ∧
      (truthy namedComment.name = false → c.authorName = none) ∧
      (truthy namedComment.name = true →
        c.authorName = some (jsTrim (jsSlice 60 (namedComment.name.getD "")))) ∧
      (truthy namedComment.name = true →
        (∀ ch ∈ (namedComment.name.getD "").data, ch.toNat < 65536) →
        c.authorName = some (jsTrim ((namedComment.name.getD "").take 60))) :=
  addComment_appends 5 "c1" namedComment sampleReview (by decide) (by decide) (by decide)

set_option maxRecDepth 40000 in
/-- C14 (as stated) fails on the white space that `CommentSchema` trims and on
characters of two code units. With a name whose 60th character is a space, the
stored `authorName` is the 59 characters before it, not the first 60
characters, through the route as well as in the handler alone. With the user id
`" u1 "` the stored author is `"u1"`. With a name of 30 characters of two code
units followed by 30 times `a`, the stored `authorName` is the 30 characters of
two units, where the first 60 characters are the whole name. -/
theorem addComment_trims_name_and_author :
    (∃ c r2, addCommentRoute 5 "c1" namedComment (some sampleReview) =
        ⟨201, .comment c, some r2⟩ ∧
      addComment 5 "c1" namedComment (some sampleReview) = ⟨201, .comment c, some r2⟩ ∧
      c.authorName = some (String.mk (List.replicate 59 'a')) ∧
      c.authorName ≠ some (longName.take 60)) ∧
    (∃ c r2, addComment 5 "c1" paddedUserComment (some sampleReview) =
        ⟨201, .comment c, some r2⟩ ∧
      getUid paddedUserComment = some " u1 " ∧ c.author = "u1") ∧
    (∃ c r2, addComment 5 "c1" emojiComment (some sampleReview) =
        ⟨201, .comment c, some r2⟩ ∧
      emojiName.length = 60 ∧
      c.authorName = some (String.mk (List.replicate 30 (Char.ofNat 128512))) ∧
      c.authorName ≠ some (emojiName.take 60)) := by
  refine ⟨⟨commentOf 5 "c1" namedComment,
      persist (save 5 { sampleReview with
        comments := sampleReview.comments ++ [commentOf 5 "c1" namedComment] }),
      by decide, by decide, by decide, by decide⟩,
    ⟨commentOf 5 "c1" paddedUserComment,
      persist (save 5 { sampleReview with
        comments := sampleReview.comments ++ [commentOf 5 "c1" paddedUserComment] }),
      by decide, by decide, by decide⟩,
    ⟨commentOf 5 "c1" emojiComment,
      persist (save 5 { sampleReview with
        comments := sampleReview.comments ++ [commentOf 5 "c1" emojiComment] }),
      by decide, by decide, by decide, by decide⟩⟩

/-! ## `deleteComment`, case by case -/

theorem deleteComment_missing (now : Nat) (req : Request) :
    deleteComment now req none = ⟨404, .message "Review not found", none⟩ := rfl

theorem deleteComment_noComment (now : Nat) (req : Request) (r : Review)
    (hf : r.comments.find? (fun c => decide (c.id = req.commentId)) = none) :
    deleteComment now req (some r) = ⟨404, .message "Comment not found", some r⟩ := by
  simp only [deleteComment, hydrate_comments, hf]

theorem author_check_iff (req : Request) (c : Comment) :
    (!truthy (getUid req) || decide (c.author ≠ (getUid req).getD "")) = true ↔
      getUid req ≠ some c.author := by
  cases hu : getUid req with
  | none => simp [truthy]
  | some u =>
    have hne := getUid_ne_empty req u hu
    simp only [truthy, Option.getD_some, ne_eq, decide_not, Bool.not_not, Bool.or_eq_true,
      decide_eq_true_eq, Bool.not_eq_true', decide_eq_false_iff_not, Option.some.injEq, hne,
      false_or]
    exact ⟨fun h h2 => h h2.symm, fun h h2 => h h2.symm⟩

theorem deleteComment_forbidden (now : Nat) (req : Request) (r : Review) (c : Comment)
    (hf : r.comments.find? (fun c => decide (c.id = req.commentId)) = some c)
    (hu : getUid req ≠ some c.author) :
    deleteComment now req (some r) =
      ⟨403, .message "Only the author can delete this comment", some r⟩ := by
  have hg := (author_check_iff req c).mpr hu
  simp only [deleteComment, hydrate_comments, hf, hg, if_true]

theorem deleteComment_ok (now : Nat) (req : Request) (r : Review) (c : Comment)
    (hf : r.comments.find? (fun c => decide (c.id = req.commentId)) = some c)
    (hu : getUid req = some c.author) :
    deleteComment now req (some r) =
      ⟨200, .ok, some (persist (save now { hydrate r with
        comments := r.comments.filter (fun x => decide (x.id ≠ req.commentId)) }))⟩ := by
  have hg : ¬ (!truthy (getUid req) || decide (c.author ≠ (getUid req).getD "")) = true :=
    fun h => (author_check_iff req c).mp h hu
  have hid : c.id = req.commentId := by
    have := List.find?_some hf
    simpa using this
  simp only [deleteComment, hydrate_comments, hf, hg, hid]
  rfl

/-! ## C15: who may delete a comment -/

/-- C15: `deleteComment` answers 404 when the review does not exist or holds no
comment with the given id; for an existing review and comment it answers 403
exactly when the requester id is absent or differs from the stored author of
the comment; in each of these cases the stored document is the one it was
given. A comment added by `"u1"` is still returned by `listComments` after
`"u2"` has tried to delete it. -/
theorem deleteComment_failures (now : Nat) (req : Request) :
    deleteComment now req none = ⟨404, .message "Review not found", none⟩ ∧
    (∀ r, r.comments.find? (fun c => decide (c.id = req.commentId)) = none →
      deleteComment now req (some r) = ⟨404, .message "Comment not found", some r⟩) ∧
    (∀ r c, r.comments.find? (fun c => decide (c.id = req.commentId)) = some c →
      ((deleteComment now req (some r)).status = 403 ↔ getUid req ≠ some c.author) ∧
      (getUid req ≠ some c.author →
        deleteComment now req (some r) =
          ⟨403, .message "Only the author can delete this comment", some r⟩)) ∧
    (∃ c r1, addComment 5 "c1" helloByU1 (some sampleReview) =
        ⟨201, .comment c, some r1⟩ ∧
      c.author = "u1" ∧ deleteC1ByU2.commentId = c.id ∧
      deleteComment 6 deleteC1ByU2 (some r1) =
        ⟨403, .message "Only the author can delete this comment", some r1⟩ ∧
      listComments (some r1) = ⟨200, .comments [c], some r1⟩) := by
  refine ⟨rfl, fun r hf => deleteComment_noComment now req r hf, ?_, ?_⟩
  · intro r c hf
    refine ⟨?_, fun hu => deleteComment_forbidden now req r c hf hu⟩
    by_cases hu : getUid req = some c.author
    · rw [deleteComment_ok now req r c hf hu]
      exact ⟨fun h => by simp at h, fun h => absurd hu h⟩
    · rw [deleteComment_forbidden now req r c hf hu]
      exact ⟨fun _ => hu, fun _ => rfl⟩
  · exact ⟨commentOf 5 "c1" helloByU1,
      persist (save 5 { sampleReview with
        comments := sampleReview.comments ++ [commentOf 5 "c1" helloByU1] }),
      by decide, by decide, by decide, by decide, by decide⟩

/-! ## C16: what a successful delete removes -/

/-- C16: when the requester id equals the stored author of the comment with
the given id, `deleteComment` answers 200 and the stored comments are the
previous ones without the comments of that id: the id no longer occurs, every
other comment is still there, unchanged and in the same relative order, and
when ids are unique exactly that one comment is gone. -/
theorem deleteComment_removes (now : Nat) (req : Request) (r : Review) (c : Comment)
    (hf : r.comments.find? (fun c => decide (c.id = req.commentId)) = some c)
    (hu : getUid req = some c.author) :
    ∃ r2, deleteComment now req (some r) = ⟨200, .ok, some r2⟩ ∧
      r2.comments = r.comments.filter (fun x => decide (x.id ≠ req.commentId)) ∧
      (∀ x ∈ r2.comments, x.id ≠ req.commentId) ∧
      (∀ x ∈ r.comments, x.id ≠ req.commentId → x ∈ r2.comments) ∧
      r2.comments.Sublist r.comments ∧
      ((r.comments.map Comment.id).Nodup → r2.comments = r.comments.erase c) := by
  have hcomments : (persist (save now { hydrate r with
      comments := r.comments.filter (fun x => decide (x.id ≠ req.commentId)) })).comments =
      r.comments.filter (fun x => decide (x.id ≠ req.commentId)) := by
    show (save now _).comments = _
    rw [save_comments]
  refine ⟨_, deleteComment_ok now req r c hf hu, hcomments, ?_, ?_, ?_, ?_⟩
  · intro x hx
    rw [hcomments] at hx
    simpa using (List.mem_filter.mp hx).2
  · intro x hx hne
    rw [hcomments]
    exact List.mem_filter.mpr ⟨hx, by simpa using hne⟩
  · rw [hcomments]
    exact List.filter_sublist _
  · intro hnd
    rw [hcomments]
    have hmem : c ∈ r.comments := List.mem_of_find?_eq_some hf
    have hid : c.id = req.commentId := by
      have := List.find?_some hf
      simpa using this
    have hl : r.comments.Nodup := List.Nodup.of_map _ hnd
    rw [hl.erase_eq_filter]
    apply List.filter_congr
    intro x hx
    have hinj := List.inj_on_of_nodup_map hnd
    by_cases hxc : x = c
    · subst hxc
      simp [hid]
    · have hne : x.id ≠ req.commentId := by
        intro h
        exact hxc (hinj hx hmem (h.trans hid.symm))
      simp [hne, hxc]

theorem deleteComment_removes_witness :
    ∃ r2, deleteComment 9 deleteC1ByU1 (some commentedThrice) = ⟨200, .ok, some r2⟩ ∧
      r2.comments =
        commentedThrice.comments.filter (fun x => decide (x.id ≠ deleteC1ByU1.commentId)) ∧
      (∀ x ∈ r2.comments, x.id ≠ deleteC1ByU1.commentId) ∧
      (∀ x ∈ commentedThrice.comments, x.id ≠ deleteC1ByU1.commentId → x ∈ r2.comments) ∧
      r2.comments.Sublist commentedThrice.comments ∧
      ((commentedThrice.comments.map Comment.id).Nodup →
        r2.comments = commentedThrice.comments.erase ⟨"c1", "first", "u1", none, 1⟩) :=
  deleteComment_removes 9 deleteC1ByU1 commentedThrice ⟨"c1", "first", "u1", none, 1⟩
    (by decide) (by decide)

/-! ## C17: the order of `listComments` -/

theorem newestFirst_le_iff (a b : Comment) :
    newestFirst a b ≤ 0 ↔ b.createdAt ≤ a.createdAt := by
  unfold newestFirst
  omega

theorem jsSort_newestFirst_perm (cs : List Comment) : (jsSort newestFirst cs).Perm cs :=
  List.perm_insertionSort _ cs

theorem jsSort_newestFirst_sorted (cs : List Comment) :
    (jsSort newestFirst cs).Pairwise (fun a b => b.createdAt ≤ a.createdAt) := by
  haveI : IsTotal Comment (fun a b => newestFirst a b ≤ 0) :=
    ⟨fun a b => by
      simp only [newestFirst_le_iff]
      exact Nat.le_total _ _⟩
  haveI : IsTrans Comment (fun a b => newestFirst a b ≤ 0) :=
    ⟨fun a b c hab hbc => by
      simp only [newestFirst_le_iff] at hab hbc ⊢
      exact Nat.le_trans hbc hab⟩
  have h := List.sorted_insertionSort (fun a b : Comment => newestFirst a b ≤ 0) cs
  exact List.Pairwise.imp (fun {a b} hab => (newestFirst_le_iff a b).mp hab) h

/-- C17: for every existing review `listComments` answers 200 with a
permutation of the stored comments in which every comment is at least as recent
as all those after it, and leaves the review as it is; comments created at the
times 1 < 2 < 3 come back in the order 3, 2, 1. -/
theorem listComments_newest_first (r : Review) :
    ∃ cs, listComments (some r) = ⟨200, .comments cs, some r⟩ ∧
      cs.Perm r.comments ∧
      cs.Pairwise (fun a b => b.createdAt ≤ a.createdAt) ∧
      listComments (some commentedThrice) =
        ⟨200, .comments [⟨"c3", "third", "u1", none, 3⟩, ⟨"c2", "second", "u2", none, 2⟩,
          ⟨"c1", "first", "u1", none, 1⟩], some commentedThrice⟩ :=
  ⟨jsSort newestFirst r.comments, rfl, jsSort_newestFirst_perm r.comments,
    jsSort_newestFirst_sorted r.comments, by decide⟩

/-! ## `createReview`, case by case -/

theorem save_title (now : Nat) (r : Review) : (save now r).title = r.title := by
  unfold save syncCounters
  dsimp only
  split <;> rfl

theorem save_description (now : Nat) (r : Review) :
    (save now r).description = r.description := by
  unfold save syncCounters
  dsimp only
  split <;> rfl

theorem save_rating (now : Nat) (r : Review) : (save now r).rating = r.rating := by
  unfold save syncCounters
  dsimp only
  split <;> rfl

theorem save_cuisine (now : Nat) (r : Review) : (save now r).cuisine = r.cuisine := by
  unfold save syncCounters
  dsimp only
  split <;> rfl

theorem save_area (now : Nat) (r : Review) : (save now r).area = r.area := by
  unfold save syncCounters
  dsimp only
  split <;> rfl

theorem save_diningStyle (now : Nat) (r : Review) :
    (save now r).diningStyle = r.diningStyle := by
  unfold save syncCounters
  dsimp only
  split <;> rfl

theorem save_price (now : Nat) (r : Review) : (save now r).price = r.price := by
  unfold save syncCounters
  dsimp only
  split <;> rfl

theorem save_authorId (now : Nat) (r : Review) : (save now r).authorId = r.authorId := by
  unfold save syncCounters
  dsimp only
  split <;> rfl

theorem createRoute_rejected (isURL : String → Bool) (now : Nat) (req : Request)
    (h : createChecks isURL req.create ≠ []) :
    createRoute isURL now req = ⟨400, .errors (createChecks isURL req.create), none⟩ := by
  simp only [createRoute, createReview, h, ne_eq, not_false_eq_true, if_true]

theorem createRoute_accepted (isURL : String → Bool) (now : Nat) (req : Request)
    (h : createChecks isURL req.create = []) :
    createRoute isURL now req =
      ⟨201, .review (createdDoc now req), some (createdDoc now req)⟩ := by
  simp only [createRoute, createReview, h, ne_eq, not_true_eq_false, if_false,
    jsOr_getUid_anonymous]
  rfl

/-! ## C18: which create requests are accepted -/

theorem typeCheck_nil_iff (b : CreateBody) (field message : String) :
    typeCheck b field message = [] ↔ field ∉ b.illTyped := by
  unfold typeCheck
  by_cases h : field ∈ b.illTyped <;> simp [h]

theorem createChecks_nil_iff (isURL : String → Bool) (b : CreateBody) :
    createChecks isURL b = [] ↔
      ((∃ t, b.title = some t ∧ 3 ≤ (jsTrim t).length) ∧
        (∃ d, b.description = some d ∧ 20 ≤ (jsTrim d).length) ∧
        (∃ q, b.rating = some q ∧ 1 ≤ q ∧ q ≤ 5) ∧
        (∀ u, b.imageUrl = some u → isURL u = true) ∧
        b.visitDate ≠ some none ∧
        (∀ n, b.authorName = some n → (jsTrim n).length ≤ 60) ∧
        (∀ field ∈ typedFields, field ∉ b.illTyped)) := by
  unfold createChecks
  simp only [List.append_eq_nil]
  have h1 : (match b.title with
      | some t => if 3 ≤ (jsTrim t).length then [] else ["title ≥ 3 chars"]
      | none => ["title ≥ 3 chars"]) = [] ↔ ∃ t, b.title = some t ∧ 3 ≤ (jsTrim t).length := by
    cases b.title <;> simp
  have h2 : (match b.description with
      | some d => if 20 ≤ (jsTrim d).length then [] else ["description ≥ 20 chars"]
      | none => ["description ≥ 20 chars"]) = [] ↔
        ∃ d, b.description = some d ∧ 20 ≤ (jsTrim d).length := by
    cases b.description <;> simp
  have h3 : (match b.rating with
      | some q => if 1 ≤ q ∧ q ≤ 5 then [] else ["rating 1–5"]
      | none => ["rating 1–5"]) = [] ↔ ∃ q, b.rating = some q ∧ 1 ≤ q ∧ q ≤ 5 := by
    cases b.rating <;> simp
  have h4 : (if decide ("imageUrl" ∈ b.illTyped) then ["imageUrl must be a URL"]
      else match b.imageUrl with
        | some u => if isURL u then [] else ["imageUrl must be a URL"]
        | none => []) = [] ↔
        ("imageUrl" ∉ b.illTyped ∧ ∀ u, b.imageUrl = some u → isURL u = true) := by
    by_cases hi : "imageUrl" ∈ b.illTyped
    · simp [hi]
    · cases b.imageUrl <;> simp [hi]
  have h5 : (match b.visitDate with
      | some none => ["Invalid value"]
      | _ => []) = [] ↔ b.visitDate ≠ some none := by
    rcases b.visitDate with _ | _ | _ <;> simp
  have h6 : (if decide ("authorName" ∈ b.illTyped) then ["Invalid value"]
      else match b.authorName with
        | some n => if (jsTrim n).length ≤ 60 then [] else ["Invalid value"]
        | none => []) = [] ↔
        ("authorName" ∉ b.illTyped ∧
          ∀ n, b.authorName = some n → (jsTrim n).length ≤ 60) := by
    by_cases hi : "authorName" ∈ b.illTyped
    · simp [hi]
    · cases b.authorName <;> simp [hi]
  have h7 : (∀ field ∈ typedFields, field ∉ b.illTyped) ↔
      ("cuisine" ∉ b.illTyped ∧ "area" ∉ b.illTyped ∧ "diningStyle" ∉ b.illTyped ∧
        "price" ∉ b.illTyped ∧ "imageUrl" ∉ b.illTyped ∧ "images" ∉ b.illTyped ∧
        "images.*" ∉ b.illTyped ∧ "tags" ∉ b.illTyped ∧ "tags.*" ∉ b.illTyped ∧
        "authorName" ∉ b.illTyped) := by
    simp only [typedFields, List.mem_cons, List.mem_singleton, List.not_mem_nil, or_false,
      forall_eq_or_imp, forall_eq]
  rw [h1, h2, h3, h4, h5, h6, h7]
  simp only [typeCheck_nil_iff]
  constructor
  · rintro ⟨⟨⟨⟨⟨⟨⟨⟨⟨⟨⟨⟨⟨a1, a2⟩, a3⟩, t1⟩, t2⟩, t3⟩, t4⟩, ⟨t5, a4⟩⟩, t6⟩, t7⟩, t8⟩, t9⟩, a5⟩,
      ⟨t10, a6⟩⟩
    exact ⟨a1, a2, a3, a4, a5, a6, t1, t2, t3, t4, t5, t6, t7, t8, t9, t10⟩
  · rintro ⟨a1, a2, a3, a4, a5, a6, t1, t2, t3, t4, t5, t6, t7, t8, t9, t10⟩
    exact ⟨⟨⟨⟨⟨⟨⟨⟨⟨⟨⟨⟨⟨a1, a2⟩, a3⟩, t1⟩, t2⟩, t3⟩, t4⟩, ⟨t5, a4⟩⟩, t6⟩, t7⟩, t8⟩, t9⟩, a5⟩,
      ⟨t10, a6⟩⟩

/-- C18 (amended): the create route answers 201 exactly for the requests whose
title has at least 3 characters after trimming, whose description has at least
20 characters after trimming, whose rating is present and is a number between
1 and 5, whose `imageUrl`, `visitDate` and `authorName`, when supplied, pass
their checks (a URL, an ISO 8601 date, at most 60 characters after trimming),
and in which none of the fields with a type check (`typedFields`) carries a
value of the wrong type; it answers 400 for every other request and stores
nothing. -/
theorem createRoute_accepts_iff (isURL : String → Bool) (now : Nat) (req : Request) :
    ((createRoute isURL now req).status = 201 ↔
      ((∃ t, req.create.title = some t ∧ 3 ≤ (jsTrim t).length) ∧
        (∃ d, req.create.description = some d ∧ 20 ≤ (jsTrim d).length) ∧
        (∃ q, req.create.rating = some q ∧ 1 ≤ q ∧ q ≤ 5) ∧
        (∀ u, req.create.imageUrl = some u → isURL u = true) ∧
        req.create.visitDate ≠ some none ∧
        (∀ n, req.create.authorName = some n → (jsTrim n).length ≤ 60) ∧
        (∀ field ∈ typedFields, field ∉ req.create.illTyped))) ∧
    ((createRoute isURL now req).status ≠ 201 →
      (createRoute isURL now req).status = 400 ∧ (createRoute isURL now req).doc = none) := by
  rw [← createChecks_nil_iff]
  by_cases h : createChecks isURL req.create = []
  · rw [createRoute_accepted isURL now req h]
    exact ⟨⟨fun _ => h, fun _ => rfl⟩, fun hc => absurd rfl hc⟩
  · rw [createRoute_rejected isURL now req h]
    exact ⟨⟨fun hc => by simp at hc, fun hc => absurd hc h⟩, fun _ => ⟨rfl, rfl⟩⟩

/-- C18 (as stated) fails in both directions. A request with a valid title and
description and no rating is answered 400, not 201; and a request that meets
the three conditions (rating 5) is answered 400 as well when its `visitDate`
is not a date, when its `tags` is a string and not an array, or when its
`cuisine` is a number. -/
theorem createRoute_not_as_stated :
    (createRoute anyURL 3 { create := greatPlaceUnrated }).status = 400 ∧
    createChecks anyURL greatPlaceUnrated = ["rating 1–5"] ∧
    (createRoute anyURL 3 { create := greatPlaceBadDate }).status = 400 ∧
    createRoute anyURL 3 { create := greatPlaceTagsString } =
      ⟨400, .errors ["tags must be an array of strings"], none⟩ ∧
    createRoute anyURL 3 { create := greatPlaceCuisineNumber } =
      ⟨400, .errors ["Invalid value"], none⟩ ∧
    (createRoute anyURL 3 { create := greatPlace }).status = 201 := by
  refine ⟨by decide, by decide, by decide, by decide, by decide, by decide⟩

/-! ## C19: the author of a created review -/

theorem createdDoc_authorId (now : Nat) (req : Request) :
    (createdDoc now req).authorId = (getUid req).getD "anonymous" := by
  show (save now _).authorId = _
  rw [save_authorId]
  rfl

theorem getUid_of_userId (req : Request) (h : truthy req.userId = true) :
    getUid req = req.userId := by
  simp [getUid, jsOr, h]

theorem getUid_of_header (req : Request) (h1 : truthy req.userId = false)
    (h2 : truthy req.xUserId = true) : getUid req = req.xUserId := by
  simp [getUid, jsOr, h1, h2]

/-- C19: for every accepted create request the stored review has as `authorId`
the requester identity (`req.userId` when it is a non-empty string, else the
`X-User-Id` header when that is one) and the literal `"anonymous"` when neither
is supplied; the `authorId` carried by the request body has no effect on the
outcome. -/
theorem createReview_authorId (isURL : String → Bool) (now : Nat) (req : Request)
    (hacc : (createRoute isURL now req).status = 201) :
    ∃ r, (createRoute isURL now req).doc = some r ∧
      (truthy req.userId = true → r.authorId = req.userId.getD "") ∧
      (truthy req.userId = false → truthy req.xUserId = true →
        r.authorId = req.xUserId.getD "") ∧
      (truthy req.userId = false → truthy req.xUserId = false →
        r.authorId = "anonymous") ∧
      (∀ a, createRoute isURL now { req with create := { req.create with authorId := a } } =
        createRoute isURL now req) := by
  have hchk : createChecks isURL req.create = [] := by
    by_contra h
    rw [createRoute_rejected isURL now req h] at hacc
    simp at hacc
  refine ⟨createdDoc now req, ?_, ?_, ?_, ?_, ?_⟩
  · rw [createRoute_accepted isURL now req hchk]
  · intro h
    rw [createdDoc_authorId, getUid_of_userId req h]
    cases hx : req.userId with
    | none => rw [hx] at h; simp [truthy] at h
    | some u => rfl
  · intro h1 h2
    rw [createdDoc_authorId, getUid_of_header req h1 h2]
    cases hx : req.xUserId with
    | none => rw [hx] at h2; simp [truthy] at h2
    | some u => rfl
  · intro h1 h2
    rw [createdDoc_authorId, (getUid_eq_none_iff req).mpr ⟨h1, h2⟩]
    rfl
  · intro a
    rfl

theorem createReview_authorId_witness :
    ∃ r, (createRoute anyURL 3 createByU1).doc = some r ∧
      (truthy createByU1.userId = true → r.authorId = createByU1.userId.getD "") ∧
      (truthy createByU1.userId = false → truthy createByU1.xUserId = true →
        r.authorId = createByU1.xUserId.getD "") ∧
      (truthy createByU1.userId = false → truthy createByU1.xUserId = false →
        r.authorId = "anonymous") ∧
      (∀ a, createRoute anyURL 3
          { createByU1 with create := { createByU1.create with authorId := a } } =
        createRoute anyURL 3 createByU1) :=
  createReview_authorId anyURL 3 createByU1 (by decide)

/-! ## C20: create, then read -/

/-- C20 (amended): for every accepted create request whose body carries no
`likedBy`, `dislikedBy`, `reports` or `isRemoved` of its own, reading the created
review back by id answers 200 with the review that was stored: the submitted
title, description and facet values with surrounding white space trimmed (the
values themselves when they have none), the submitted rating, `likes = 0`,
`dislikes = 0`, an empty reports array and `isRemoved = false`. -/
theorem create_then_read (isURL : String → Bool) (now : Nat) (req : Request)
    (hacc : createChecks isURL req.create = [])
    (hl : req.create.likedBy.getD [] = [])
    (hd : req.create.dislikedBy.getD [] = [])
    (hrep : req.create.reports.getD (.arr []) = .arr [])
    (hrem : req.create.isRemoved.getD false = false) :
    ∃ r, createRoute isURL now req = ⟨201, .review r, some r⟩ ∧
      getReviewById (some r) = ⟨200, .review r, some r⟩ ∧
      r.title = jsTrim (req.create.title.getD "") ∧
      r.description = jsTrim (req.create.description.getD "") ∧
      r.rating = req.create.rating ∧
      r.cuisine = req.create.cuisine.map jsTrim ∧
      r.area = req.create.area.map jsTrim ∧
      r.diningStyle = req.create.diningStyle.map jsTrim ∧
      r.price = req.create.price.map jsTrim ∧
      r.likes = 0 ∧ r.dislikes = 0 ∧ r.reports = .arr [] ∧ r.isRemoved = false := by
  have hrem2 : (createdDoc now req).isRemoved = false := by
    show (save now _).isRemoved = false
    rw [save_isRemoved]
    show ((req.create.isRemoved.getD false) ||
      decide (repCount (req.create.reports.getD (.arr [])) ≥ 5)) = false
    rw [hrem, hrep]
    rfl
  have hopt : ∀ o : Option String, (o.map jsTrim).map jsTrim = o.map jsTrim := by
    intro o
    cases o with
    | none => rfl
    | some s => simp [jsTrim_idem]
  have hstr : ∀ o : Option String, jsTrim ((o.map jsTrim).getD "") = jsTrim (o.getD "") := by
    intro o
    cases o with
    | none => rfl
    | some s => simp [jsTrim_idem]
  refine ⟨createdDoc now req, createRoute_accepted isURL now req hacc, ?_, ?_, ?_, ?_, ?_, ?_,
    ?_, ?_, ?_, ?_, ?_, hrem2⟩
  · simp only [getReviewById, hrem2, Bool.false_eq_true, if_false]
  · show (save now _).title = _
    rw [save_title]
    exact hstr _
  · show (save now _).description = _
    rw [save_description]
    exact hstr _
  · show (save now _).rating = _
    rw [save_rating]
    rfl
  · show (save now _).cuisine = _
    rw [save_cuisine]
    exact hopt _
  · show (save now _).area = _
    rw [save_area]
    exact hopt _
  · show (save now _).diningStyle = _
    rw [save_diningStyle]
    exact hopt _
  · show (save now _).price = _
    rw [save_price]
    exact hopt _
  · show (save now _).likes = 0
    rw [save_likes]
    show (req.create.likedBy.getD []).length = 0
    rw [hl]
    rfl
  · show (save now _).dislikes = 0
    rw [save_dislikes]
    show (req.create.dislikedBy.getD []).length = 0
    rw [hd]
    rfl
  · show (save now _).reports = _
    rw [save_reports]
    exact hrep

theorem create_then_read_witness :
    ∃ r, createRoute anyURL 3 createByU1 = ⟨201, .review r, some r⟩ ∧
      getReviewById (some r) = ⟨200, .review r, some r⟩ ∧
      r.title = jsTrim (createByU1.create.title.getD "") ∧
      r.description = jsTrim (createByU1.create.description.getD "") ∧
      r.rating = createByU1.create.rating ∧
      r.cuisine = createByU1.create.cuisine.map jsTrim ∧
      r.area = createByU1.create.area.map jsTrim ∧
      r.diningStyle = createByU1.create.diningStyle.map jsTrim ∧
      r.price = createByU1.create.price.map jsTrim ∧
      r.likes = 0 ∧ r.dislikes = 0 ∧ r.reports = .arr [] ∧ r.isRemoved = false :=
  create_then_read anyURL 3 createByU1 (by decide) (by decide) (by decide) (by decide)
    (by decide)

/-- C20 (as stated) fails in three ways. A title submitted with blanks around
it is stored and read back trimmed. A body carrying `isRemoved: true` is
accepted (201) and the created review is then answered 404 by `getReviewById`.
A body carrying `likedBy: ["x"]` is accepted and read back with `likes = 1`. -/
theorem create_then_read_not_as_stated :
    (∃ r, createRoute anyURL 3 { create := greatPlacePadded } = ⟨201, .review r, some r⟩ ∧
      getReviewById (some r) = ⟨200, .review r, some r⟩ ∧
      r.title = "Great Place Indeed" ∧ some r.title ≠ greatPlacePadded.title) ∧
    (∃ r, createRoute anyURL 3 { create := greatPlaceRemoved } = ⟨201, .review r, some r⟩ ∧
      getReviewById (some r) = ⟨404, .message "Review not found", some r⟩) ∧
    (∃ r, createRoute anyURL 3 { create := greatPlaceLiked } = ⟨201, .review r, some r⟩ ∧
      getReviewById (some r) = ⟨200, .review r, some r⟩ ∧ r.likes = 1) :=
  ⟨⟨createdDoc 3 { create := greatPlacePadded }, by decide, by decide, by decide, by decide⟩,
    ⟨createdDoc 3 { create := greatPlaceRemoved }, by decide, by decide⟩,
    ⟨createdDoc 3 { create := greatPlaceLiked }, by decide, by decide, by decide⟩⟩

/-! ## C21: who may update a review -/

theorem updateReview_forbidden (now : Nat) (req : Request) (r : Review)
    (h1 : r.authorId ≠ "") (h2 : r.authorId ≠ "anonymous")
    (hu : getUid req ≠ some r.authorId) :
    updateReview now req (some r) =
      ⟨403, .message "Only the author can update this post", some r⟩ := by
  have hg : (!truthy (getUid req) || decide (r.authorId ≠ (getUid req).getD "")) = true := by
    have h := (author_check_iff req ⟨"", "", r.authorId, none, 0⟩).mpr hu
    exact h
  simp only [updateReview, hydrate_authorId, h1, h2, hg, ne_eq, not_false_eq_true,
    decide_True, Bool.and_self, if_true]

theorem updateReview_permitted (now : Nat) (req : Request) (r : Review)
    (h : r.authorId = "" ∨ r.authorId = "anonymous" ∨ getUid req = some r.authorId) :
    updateReview now req (some r) =
      ⟨200, .review (persist (save now (applyUpdate req.update (hydrate r)))),
        some (persist (save now (applyUpdate req.update (hydrate r))))⟩ := by
  have hg : ¬ ((decide (r.authorId ≠ "") && decide (r.authorId ≠ "anonymous")) &&
      (!truthy (getUid req) || decide (r.authorId ≠ (getUid req).getD ""))) = true := by
    intro hc
    simp only [Bool.and_eq_true, decide_eq_true_eq] at hc
    obtain ⟨⟨h1, h2⟩, h3⟩ := hc
    rcases h with h | h | h
    · exact h1 h
    · exact h2 h
    · exact (author_check_iff req ⟨"", "", r.authorId, none, 0⟩).mp h3 h
  simp only [updateReview, hydrate_authorId, hg]
  rfl

/-- C21: for an existing review `updateReview` answers 403 exactly when the
review has a real author (`authorId` non-empty and not `"anonymous"`) and the
requester identity is absent or differs from `authorId`; in every other case,
so whenever `authorId` is `"anonymous"`, whoever asks and even with no
identity, the update is carried out and answered 200. -/
theorem updateReview_refused_iff (now : Nat) (req : Request) (r : Review) :
    ((updateReview now req (some r)).status = 403 ↔
      (r.authorId ≠ "" ∧ r.authorId ≠ "anonymous" ∧ getUid req ≠ some r.authorId)) ∧
    ((updateReview now req (some r)).status ≠ 403 →
      (updateReview now req (some r)).status = 200) ∧
    (r.authorId = "anonymous" → (updateReview now req (some r)).status = 200) ∧
    (getUid req ≠ some r.authorId ↔
      (getUid req = none ∨ ∃ u, getUid req = some u ∧ u ≠ r.authorId)) := by
  have hid : getUid req ≠ some r.authorId ↔
      (getUid req = none ∨ ∃ u, getUid req = some u ∧ u ≠ r.authorId) := by
    cases hu : getUid req with
    | none => simp
    | some u => simp
  by_cases h : r.authorId ≠ "" ∧ r.authorId ≠ "anonymous" ∧ getUid req ≠ some r.authorId
  · rw [updateReview_forbidden now req r h.1 h.2.1 h.2.2]
    refine ⟨⟨fun _ => h, fun _ => rfl⟩, fun hc => absurd rfl hc, ?_, hid⟩
    intro ha
    exact absurd ha h.2.1
  · have hp : r.authorId = "" ∨ r.authorId = "anonymous" ∨ getUid req = some r.authorId := by
      by_contra hc
      simp only [not_or] at hc
      exact h ⟨hc.1, hc.2.1, hc.2.2⟩
    rw [updateReview_permitted now req r hp]
    exact ⟨⟨fun hc => by simp at hc, fun hc => absurd hc h⟩, fun _ => rfl, fun _ => rfl, hid⟩

/-! ## C24: reaction fields in the older format -/

theorem toggleLike_canonical (req : Request) (r : Review) :
    (toggleLike req (some r)).status = (toggleLike req (some (canonical r))).status ∧
    (toggleLike req (some r)).body = (toggleLike req (some (canonical r))).body ∧
    ((toggleLike req (some r)).status = 200 →
      toggleLike req (some r) = toggleLike req (some (canonical r))) := by
  cases hu : getUid req with
  | none =>
    rw [toggleLike_noUid req _ hu, toggleLike_noUid req _ hu]
    exact ⟨rfl, rfl, fun h => by simp at h⟩
  | some u =>
    cases hr : r.isRemoved with
    | true =>
      rw [toggleLike_removed req r u hu hr, toggleLike_removed req (canonical r) u hu hr]
      exact ⟨rfl, rfl, fun h => by simp at h⟩
    | false =>
      by_cases hm : u ∈ normalize r.likedBy
      · rw [toggleLike_liked req r u hu hr hm, toggleLike_liked req (canonical r) u hu hr hm]
        exact ⟨rfl, rfl, fun _ => rfl⟩
      · rw [toggleLike_fresh req r u hu hr hm, toggleLike_fresh req (canonical r) u hu hr hm]
        exact ⟨rfl, rfl, fun _ => rfl⟩

theorem toggleDislike_canonical (req : Request) (r : Review) :
    (toggleDislike req (some r)).status = (toggleDislike req (some (canonical r))).status ∧
    (toggleDislike req (some r)).body = (toggleDislike req (some (canonical r))).body ∧
    ((toggleDislike req (some r)).status = 200 →
      toggleDislike req (some r) = toggleDislike req (some (canonical r))) := by
  cases hu : getUid req with
  | none =>
    rw [toggleDislike_noUid req _ hu, toggleDislike_noUid req _ hu]
    exact ⟨rfl, rfl, fun h => by simp at h⟩
  | some u =>
    cases hr : r.isRemoved with
    | true =>
      rw [toggleDislike_removed req r u hu hr, toggleDislike_removed req (canonical r) u hu hr]
      exact ⟨rfl, rfl, fun h => by simp at h⟩
    | false =>
      by_cases hm : u ∈ normalize r.dislikedBy
      · rw [toggleDislike_disliked req r u hu hr hm,
          toggleDislike_disliked req (canonical r) u hu hr hm]
        exact ⟨rfl, rfl, fun _ => rfl⟩
      · rw [toggleDislike_fresh req r u hu hr hm,
          toggleDislike_fresh req (canonical r) u hu hr hm]
        exact ⟨rfl, rfl, fun _ => rfl⟩

theorem toggle_writes_arrays (req : Request) (r : Review) :
    (∀ r2, (toggleLike req (some r)).status = 200 → (toggleLike req (some r)).doc = some r2 →
      ∃ l d, r2.likedBy = .arr l ∧ r2.dislikedBy = .arr d) ∧
    (∀ r2, (toggleDislike req (some r)).status = 200 →
      (toggleDislike req (some r)).doc = some r2 →
      ∃ l d, r2.likedBy = .arr l ∧ r2.dislikedBy = .arr d) := by
  cases hu : getUid req with
  | none =>
    rw [toggleLike_noUid req _ hu, toggleDislike_noUid req _ hu]
    exact ⟨fun _ h => by simp at h, fun _ h => by simp at h⟩
  | some u =>
    cases hr : r.isRemoved with
    | true =>
      rw [toggleLike_removed req r u hu hr, toggleDislike_removed req r u hu hr]
      exact ⟨fun _ h => by simp at h, fun _ h => by simp at h⟩
    | false =>
      constructor
      · intro r2 _ hd
        by_cases hm : u ∈ normalize r.likedBy
        · rw [toggleLike_liked req r u hu hr hm] at hd
          simp only [Option.some.injEq] at hd
          subst hd
          exact ⟨_, _, rfl, rfl⟩
        · rw [toggleLike_fresh req r u hu hr hm] at hd
          simp only [Option.some.injEq] at hd
          subst hd
          exact ⟨_, _, rfl, rfl⟩
      · intro r2 _ hd
        by_cases hm : u ∈ normalize r.dislikedBy
        · rw [toggleDislike_disliked req r u hu hr hm] at hd
          simp only [Option.some.injEq] at hd
          subst hd
          exact ⟨_, _, rfl, rfl⟩
        · rw [toggleDislike_fresh req r u hu hr hm] at hd
          simp only [Option.some.injEq] at hd
          subst hd
          exact ⟨_, _, rfl, rfl⟩

/-- C24: the toggles read a stored `likedBy` or `dislikedBy` that is a bare
non-empty string as the one-element array holding it, and an empty or missing
value as the empty array: their answer is the one they give on the review with
both fields brought to that array shape, a successful toggle stores the same
document, and what it stores in the two fields are arrays. -/
theorem toggles_normalize_legacy (req : Request) (r : Review) :
    (∀ s, s ≠ "" → normalize (.str s) = [s]) ∧
    normalize (.str "") = [] ∧ normalize .absent = [] ∧
    (toggleLike req (some r)).status = (toggleLike req (some (canonical r))).status ∧
    (toggleLike req (some r)).body = (toggleLike req (some (canonical r))).body ∧
    ((toggleLike req (some r)).status = 200 →
      toggleLike req (some r) = toggleLike req (some (canonical r))) ∧
    (toggleDislike req (some r)).status = (toggleDislike req (some (canonical r))).status ∧
    (toggleDislike req (some r)).body = (toggleDislike req (some (canonical r))).body ∧
    ((toggleDislike req (some r)).status = 200 →
      toggleDislike req (some r) = toggleDislike req (some (canonical r))) ∧
    (∀ r2, (toggleLike req (some r)).status = 200 → (toggleLike req (some r)).doc = some r2 →
      ∃ l d, r2.likedBy = .arr l ∧ r2.dislikedBy = .arr d) ∧
    (∀ r2, (toggleDislike req (some r)).status = 200 →
      (toggleDislike req (some r)).doc = some r2 →
      ∃ l d, r2.likedBy = .arr l ∧ r2.dislikedBy = .arr d) ∧
    toggleLike (asUser "u") (some legacyLikedByV) =
      ⟨200, .reaction true 2 false 0, some (withReactions legacyLikedByV ["v", "u"] [])⟩ := by
  obtain ⟨a1, a2, a3⟩ := toggleLike_canonical req r
  obtain ⟨b1, b2, b3⟩ := toggleDislike_canonical req r
  obtain ⟨c1, c2⟩ := toggle_writes_arrays req r
  refine ⟨?_, rfl, rfl, a1, a2, a3, b1, b2, b3, c1, c2, by decide⟩
  intro s hs
  simp [normalize, hs]

/-! ## C28: what a toggle leaves alone -/

theorem others_erase (u : String) (ids : List String) :
    others u (ids.erase u) = others u ids := by
  induction ids with
  | nil => rfl
  | cons x xs ih =>
    by_cases hx : x = u
    · subst hx
      simp [others]
    · have hb : ¬ (x == u) = true := by simpa using hx
      rw [List.erase_cons_tail hb]
      unfold others at ih ⊢
      simp only [List.filter_cons, ih]

theorem others_push (u : String) (ids : List String) :
    others u (ids ++ [u]) = others u ids := by
  simp [others]

theorem mem_erase_other (u v : String) (ids : List String) (hv : v ≠ u) :
    v ∈ ids.erase u ↔ v ∈ ids :=
  List.mem_erase_of_ne hv

theorem mem_push_other (u v : String) (ids : List String) (hv : v ≠ u) :
    v ∈ ids ++ [u] ↔ v ∈ ids := by
  simp [hv]

theorem toggle_doc_cases (req : Request) (r r2 : Review) (u : String)
    (hu : getUid req = some u)
    (h : (toggleLike req (some r)).doc = some r2 ∨ (toggleDislike req (some r)).doc = some r2) :
    r2 = r ∨
    r2 = withReactions r ((normalize r.likedBy).erase u) (normalize r.dislikedBy) ∨
    r2 = withReactions r (normalize r.likedBy ++ [u]) ((normalize r.dislikedBy).erase u) ∨
    r2 = withReactions r (normalize r.likedBy) ((normalize r.dislikedBy).erase u) ∨
    r2 = withReactions r ((normalize r.likedBy).erase u) (normalize r.dislikedBy ++ [u]) := by
  cases hr : r.isRemoved with
  | true =>
    rw [toggleLike_removed req r u hu hr, toggleDislike_removed req r u hu hr] at h
    simp only [Option.some.injEq, or_self] at h
    exact Or.inl h.symm
  | false =>
    rcases h with h | h
    · by_cases hm : u ∈ normalize r.likedBy
      · rw [toggleLike_liked req r u hu hr hm] at h
        simp only [Option.some.injEq] at h
        exact Or.inr (Or.inl h.symm)
      · rw [toggleLike_fresh req r u hu hr hm] at h
        simp only [Option.some.injEq] at h
        exact Or.inr (Or.inr (Or.inl h.symm))
    · by_cases hm : u ∈ normalize r.dislikedBy
      · rw [toggleDislike_disliked req r u hu hr hm] at h
        simp only [Option.some.injEq] at h
        exact Or.inr (Or.inr (Or.inr (Or.inl h.symm)))
      · rw [toggleDislike_fresh req r u hu hr hm] at h
        simp only [Option.some.injEq] at h
        exact Or.inr (Or.inr (Or.inr (Or.inr h.symm)))

/-- C28: for a toggle by the user `u` and any other identity `v`, the document
left by `toggleLike` or `toggleDislike` has `v` in `likedBy` and in `dislikedBy`
exactly when it was there before, holds the entries of the other users in
their previous order, and agrees with the previous document on everything but
`likedBy`, `dislikedBy`, `likes` and `dislikes` (so on comments, reports,
`isRemoved`, `authorId` and the content fields). -/
theorem toggle_frame (req : Request) (r r2 : Review) (u v : String)
    (hu : getUid req = some u) (hv : v ≠ u)
    (h : (toggleLike req (some r)).doc = some r2 ∨ (toggleDislike req (some r)).doc = some r2) :
    (v ∈ normalize r2.likedBy ↔ v ∈ normalize r.likedBy) ∧
    (v ∈ normalize r2.dislikedBy ↔ v ∈ normalize r.dislikedBy) ∧
    others u (normalize r2.likedBy) = others u (normalize r.likedBy) ∧
    others u (normalize r2.dislikedBy) = others u (normalize r.dislikedBy) ∧
    withoutReactions r2 = withoutReactions r ∧
    r2.comments = r.comments ∧ r2.reports = r.reports ∧ r2.isRemoved = r.isRemoved ∧
    r2.authorId = r.authorId ∧ r2.title = r.title ∧ r2.description = r.description ∧
    r2.rating = r.rating := by
  rcases toggle_doc_cases req r r2 u hu h with e | e | e | e | e <;> subst e
  · exact ⟨Iff.rfl, Iff.rfl, rfl, rfl, rfl, rfl, rfl, rfl, rfl, rfl, rfl, rfl⟩
  · exact ⟨mem_erase_other u v _ hv, Iff.rfl, others_erase u _, rfl, rfl, rfl, rfl, rfl, rfl,
      rfl, rfl, rfl⟩
  · exact ⟨mem_push_other u v _ hv, mem_erase_other u v _ hv, others_push u _,
      others_erase u _, rfl, rfl, rfl, rfl, rfl, rfl, rfl, rfl⟩
  · exact ⟨Iff.rfl, mem_erase_other u v _ hv, rfl, others_erase u _, rfl, rfl, rfl, rfl, rfl,
      rfl, rfl, rfl⟩
  · exact ⟨mem_erase_other u v _ hv, mem_push_other u v _ hv, others_erase u _,
      others_push u _, rfl, rfl, rfl, rfl, rfl, rfl, rfl, rfl⟩

theorem toggle_frame_witness :
    ("v" ∈ normalize (withReactions likedV_dislikedU ["v", "u"] []).likedBy ↔
      "v" ∈ normalize likedV_dislikedU.likedBy) ∧
    ("v" ∈ normalize (withReactions likedV_dislikedU ["v", "u"] []).dislikedBy ↔
      "v" ∈ normalize likedV_dislikedU.dislikedBy) ∧
    others "u" (normalize (withReactions likedV_dislikedU ["v", "u"] []).likedBy) =
      others "u" (normalize likedV_dislikedU.likedBy) ∧
    others "u" (normalize (withReactions likedV_dislikedU ["v", "u"] []).dislikedBy) =
      others "u" (normalize likedV_dislikedU.dislikedBy) ∧
    withoutReactions (withReactions likedV_dislikedU ["v", "u"] []) =
      withoutReactions likedV_dislikedU ∧
    (withReactions likedV_dislikedU ["v", "u"] []).comments = likedV_dislikedU.comments ∧
    (withReactions likedV_dislikedU ["v", "u"] []).reports = likedV_dislikedU.reports ∧
    (withReactions likedV_dislikedU ["v", "u"] []).isRemoved = likedV_dislikedU.isRemoved ∧
    (withReactions likedV_dislikedU ["v", "u"] []).authorId = likedV_dislikedU.authorId ∧
    (withReactions likedV_dislikedU ["v", "u"] []).title = likedV_dislikedU.title ∧
    (withReactions likedV_dislikedU ["v", "u"] []).description =
      likedV_dislikedU.description ∧
    (withReactions likedV_dislikedU ["v", "u"] []).rating = likedV_dislikedU.rating :=
  toggle_frame (asUser "u") likedV_dislikedU (withReactions likedV_dislikedU ["v", "u"] [])
    "u" "v" (by decide) (by decide) (Or.inl (by decide))

/-! ## C29: what `updateReview` copies -/

theorem save_tags (now : Nat) (r : Review) : (save now r).tags = r.tags := by
  unfold save syncCounters
  dsimp only
  split <;> rfl

theorem save_imageUrl (now : Nat) (r : Review) : (save now r).imageUrl = r.imageUrl := by
  unfold save syncCounters
  dsimp only
  split <;> rfl

theorem save_visitDate (now : Nat) (r : Review) : (save now r).visitDate = r.visitDate := by
  unfold save syncCounters
  dsimp only
  split <;> rfl

theorem updateReview_status_cases (now : Nat) (req : Request) (r : Review)
    (hs : (updateReview now req (some r)).status = 200) :
    updateReview now req (some r) =
      ⟨200, .review (persist (save now (applyUpdate req.update (hydrate r)))),
        some (persist (save now (applyUpdate req.update (hydrate r))))⟩ := by
  by_cases h : r.authorId ≠ "" ∧ r.authorId ≠ "anonymous" ∧ getUid req ≠ some r.authorId
  · rw [updateReview_forbidden now req r h.1 h.2.1 h.2.2] at hs
    simp at hs
  · apply updateReview_permitted
    by_contra hc
    simp only [not_or] at hc
    exact h ⟨hc.1, hc.2.1, hc.2.2⟩

/-- C29 (amended): for every permitted update request the stored review keeps
its `authorId`, `reports` and `comments`; its `likedBy` and `dislikedBy` are the
previous ones as the schema casts them, so they keep their value when they are
stored as arrays, while a bare id `v` is stored back as `[v]` and a missing
field as `[]`; this holds whatever the body carries under those keys or under
`likes`, `dislikes` and `isRemoved` (the outcome does not depend on them); and
every whitelisted field missing from the body keeps its value. -/
theorem updateReview_whitelist (now : Nat) (req : Request) (r : Review)
    (hs : (updateReview now req (some r)).status = 200) :
    ∃ r2, updateReview now req (some r) = ⟨200, .review r2, some r2⟩ ∧
      r2.authorId = r.authorId ∧
      r2.likedBy = hydrateIds r.likedBy ∧ r2.dislikedBy = hydrateIds r.dislikedBy ∧
      (∀ ids, r.likedBy = .arr ids → r2.likedBy = r.likedBy) ∧
      (∀ ids, r.dislikedBy = .arr ids → r2.dislikedBy = r.dislikedBy) ∧
      (∀ v, r.likedBy = .str v → r2.likedBy = .arr [v]) ∧
      (∀ v, r.dislikedBy = .str v → r2.dislikedBy = .arr [v]) ∧
      (r.likedBy = .absent → r2.likedBy = .arr []) ∧
      (r.dislikedBy = .absent → r2.dislikedBy = .arr []) ∧
      r2.reports = r.reports ∧ r2.comments = r.comments ∧
      (req.update.title = none → r2.title = r.title) ∧
      (req.update.description = none → r2.description = r.description) ∧
      (req.update.rating = none → r2.rating = r.rating) ∧
      (req.update.cuisine = none → r2.cuisine = r.cuisine) ∧
      (req.update.area = none → r2.area = r.area) ∧
      (req.update.diningStyle = none → r2.diningStyle = r.diningStyle) ∧
      (req.update.price = none → r2.price = r.price) ∧
      (req.update.imageUrl = none → r2.imageUrl = r.imageUrl) ∧
      (req.update.tags = none → r2.tags = r.tags) ∧
      (req.update.visitDate = none → r2.visitDate = r.visitDate) ∧
      (∀ a l d n m rep rem cs,
        updateReview now
          { req with update := { req.update with
              authorId := a, likedBy := l, dislikedBy := d, likes := n, dislikes := m,
              reports := rep, isRemoved := rem, comments := cs } } (some r) =
        updateReview now req (some r)) := by
  have hl : (persist (save now (applyUpdate req.update (hydrate r)))).likedBy =
      hydrateIds r.likedBy := by
    show (save now _).likedBy = _
    rw [save_likedBy]; rfl
  have hd : (persist (save now (applyUpdate req.update (hydrate r)))).dislikedBy =
      hydrateIds r.dislikedBy := by
    show (save now _).dislikedBy = _
    rw [save_dislikedBy]; rfl
  refine ⟨persist (save now (applyUpdate req.update (hydrate r))),
    updateReview_status_cases now req r hs, ?_, hl, hd, ?_, ?_, ?_, ?_, ?_, ?_, ?_, ?_, ?_,
    ?_, ?_, ?_, ?_, ?_, ?_, ?_, ?_, ?_, ?_⟩
  · show (save now _).authorId = _
    rw [save_authorId]; rfl
  · intro ids h
    rw [hl, hydrateIds_arr _ ids h]
  · intro ids h
    rw [hd, hydrateIds_arr _ ids h]
  · intro v h
    rw [hl, h]; rfl
  · intro v h
    rw [hd, h]; rfl
  · intro h
    rw [hl, h]; rfl
  · intro h
    rw [hd, h]; rfl
  · show (save now _).reports = _
    rw [save_reports]; rfl
  · show (save now _).comments = _
    rw [save_comments]; rfl
  · intro h
    show (save now _).title = _
    rw [save_title]
    simp only [applyUpdate, h]
    rfl
  · intro h
    show (save now _).description = _
    rw [save_description]
    simp only [applyUpdate, h]
    rfl
  · intro h
    show (save now _).rating = _
    rw [save_rating]
    simp only [applyUpdate, h]
    rfl
  · intro h
    show (save now _).cuisine = _
    rw [save_cuisine]
    simp only [applyUpdate, h]
    rfl
  · intro h
    show (save now _).area = _
    rw [save_area]
    simp only [applyUpdate, h]
    rfl
  · intro h
    show (save now _).diningStyle = _
    rw [save_diningStyle]
    simp only [applyUpdate, h]
    rfl
  · intro h
    show (save now _).price = _
    rw [save_price]
    simp only [applyUpdate, h]
    rfl
  · intro h
    show (save now _).imageUrl = _
    rw [save_imageUrl]
    simp only [applyUpdate, h]
    rfl
  · intro h
    show (save now _).tags = _
    rw [save_tags]
    simp only [applyUpdate, h]
    rfl
  · intro h
    show (save now _).visitDate = _
    rw [save_visitDate]
    simp only [applyUpdate, h]
    rfl
  · intro a l d n m rep rem cs
    rfl

theorem updateReview_whitelist_witness :
    ∃ r2, updateReview 9 greedyUpdateByU1 (some reviewOfU1) = ⟨200, .review r2, some r2⟩ ∧
      r2.authorId = reviewOfU1.authorId ∧
      r2.likedBy = hydrateIds reviewOfU1.likedBy ∧
      r2.dislikedBy = hydrateIds reviewOfU1.dislikedBy ∧
      (∀ ids, reviewOfU1.likedBy = .arr ids → r2.likedBy = reviewOfU1.likedBy) ∧
      (∀ ids, reviewOfU1.dislikedBy = .arr ids → r2.dislikedBy = reviewOfU1.dislikedBy) ∧
      (∀ v, reviewOfU1.likedBy = .str v → r2.likedBy = .arr [v]) ∧
      (∀ v, reviewOfU1.dislikedBy = .str v → r2.dislikedBy = .arr [v]) ∧
      (reviewOfU1.likedBy = .absent → r2.likedBy = .arr []) ∧
      (reviewOfU1.dislikedBy = .absent → r2.dislikedBy = .arr []) ∧
      r2.reports = reviewOfU1.reports ∧ r2.comments = reviewOfU1.comments ∧
      (greedyUpdateByU1.update.title = none → r2.title = reviewOfU1.title) ∧
      (greedyUpdateByU1.update.description = none → r2.description = reviewOfU1.description) ∧
      (greedyUpdateByU1.update.rating = none → r2.rating = reviewOfU1.rating) ∧
      (greedyUpdateByU1.update.cuisine = none → r2.cuisine = reviewOfU1.cuisine) ∧
      (greedyUpdateByU1.update.area = none → r2.area = reviewOfU1.area) ∧
      (greedyUpdateByU1.update.diningStyle = none → r2.diningStyle = reviewOfU1.diningStyle) ∧
      (greedyUpdateByU1.update.price = none → r2.price = reviewOfU1.price) ∧
      (greedyUpdateByU1.update.imageUrl = none → r2.imageUrl = reviewOfU1.imageUrl) ∧
      (greedyUpdateByU1.update.tags = none → r2.tags = reviewOfU1.tags) ∧
      (greedyUpdateByU1.update.visitDate = none → r2.visitDate = reviewOfU1.visitDate) ∧
      (∀ a l d n m rep rem cs,
        updateReview 9
          { greedyUpdateByU1 with update := { greedyUpdateByU1.update with
              authorId := a, likedBy := l, dislikedBy := d, likes := n, dislikes := m,
              reports := rep, isRemoved := rem, comments := cs } } (some reviewOfU1) =
        updateReview 9 greedyUpdateByU1 (some reviewOfU1)) :=
  updateReview_whitelist 9 greedyUpdateByU1 reviewOfU1 (by decide)

/-- C29 (as stated) fails on a review stored in the older format. On the review
whose `likedBy` is the bare id `"v"` and whose `dislikedBy` is missing, an
update with an empty body is permitted and answers 200; afterwards the stored
`likedBy` is the array `["v"]` and the stored `dislikedBy` is `[]`, not the
values before the update. -/
theorem update_rewrites_legacy_reactions :
    legacyLikedByV.likedBy = .str "v" ∧ legacyLikedByV.dislikedBy = .absent ∧
    (∃ r2, updateReview 9 emptyUpdate (some legacyLikedByV) =
        ⟨200, .review r2, some r2⟩ ∧
      r2.likedBy = .arr ["v"] ∧ r2.likedBy ≠ legacyLikedByV.likedBy ∧
      r2.dislikedBy = .arr [] ∧ r2.dislikedBy ≠ legacyLikedByV.dislikedBy) :=
  ⟨rfl, rfl, persist (save 9 (applyUpdate emptyUpdate.update (hydrate legacyLikedByV))),
    by decide, by decide, by decide, by decide, by decide⟩

/-! ## C30: a report on a legacy report count -/

theorem reportsArrayOf_nonArray (f : ReportsField) (h : ∀ l, f ≠ .arr l) :
    reportsArrayOf f = [] := by
  cases f with
  | arr l => exact absurd rfl (h l)
  | num n => rfl
  | other => rfl

/-- C30: when the stored `reports` is not an array (a legacy count `n`, which
`syncCounters` counts as `n` reports), a report by `u` with a non-empty reason
answers 200 with `reportsCount = 1` and `removed` equal to the previous
`isRemoved`, and the stored `reports` becomes the array holding only the new
report. -/
theorem report_discards_legacy_count (now : Nat) (req : Request) (r : Review) (u : String)
    (hu : getUid req = some u) (ht : truthy req.reason = true)
    (hl : ∀ l, r.reports ≠ .arr l) :
    ∃ r2, reportReview now req (some r) = ⟨200, .report 1 r.isRemoved, some r2⟩ ∧
      r2.reports = .arr [⟨u, req.reason.getD "", now⟩] ∧
      r2.isRemoved = r.isRemoved ∧
      (∀ n, r.reports = .num n → repCount r.reports = n ∧
        (syncCounters now r).reportsCount = some n) := by
  have hra := reportsArrayOf_nonArray r.reports hl
  have hok := reportReview_ok now req r u hu ht (by rw [hra]; intro rep hrep; simp at hrep)
  rw [hra] at hok
  rw [storeAfterReport_nonArray r.reports _ hl] at hok
  have hrem : (persist (save now { hydrate r with
      reports := .arr ([] ++ [⟨u, req.reason.getD "", now⟩]) })).isRemoved = r.isRemoved := by
    show (save now _).isRemoved = _
    rw [save_isRemoved]
    simp [repCount, hydrate_isRemoved]
  refine ⟨persist (save now { hydrate r with
      reports := .arr ([] ++ [⟨u, req.reason.getD "", now⟩]) }), ?_, ?_, hrem, ?_⟩
  · rw [hok]
    simp
  · show (save now _).reports = _
    rw [save_reports]
    rfl
  · intro n hn
    refine ⟨by rw [hn]; rfl, ?_⟩
    unfold syncCounters
    dsimp only
    split <;> simp [hn, repCount]

theorem report_discards_legacy_count_witness :
    ∃ r2, reportReview 9 spamReportByU5 (some sevenLegacyReports) =
        ⟨200, .report 1 sevenLegacyReports.isRemoved, some r2⟩ ∧
      r2.reports = .arr [⟨"u5", spamReportByU5.reason.getD "", 9⟩] ∧
      r2.isRemoved = sevenLegacyReports.isRemoved ∧
      (∀ n, sevenLegacyReports.reports = .num n → repCount sevenLegacyReports.reports = n ∧
        (syncCounters 9 sevenLegacyReports).reportsCount = some n) :=
  report_discards_legacy_count 9 spamReportByU5 sevenLegacyReports "u5" (by decide)
    (by decide) (by intro l h; cases h)

/-! ## C22: who may delete a review -/

theorem deleteReview_forbidden (req : Request) (r : Review)
    (h1 : r.authorId ≠ "") (h2 : r.authorId ≠ "anonymous")
    (hu : getUid req ≠ some r.authorId) :
    deleteReview req (some r) =
      ⟨403, .message "Only the author can delete this post", some r⟩ := by
  have hg : (!truthy (getUid req) || decide (r.authorId ≠ (getUid req).getD "")) = true :=
    (author_check_iff req ⟨"", "", r.authorId, none, 0⟩).mpr hu
  simp only [deleteReview, h1, h2, hg, ne_eq, not_false_eq_true, decide_True, Bool.and_self,
    if_true]

theorem deleteReview_permitted (req : Request) (r : Review)
    (h : r.authorId = "" ∨ r.authorId = "anonymous" ∨ getUid req = some r.authorId) :
    deleteReview req (some r) = ⟨200, .message "Review deleted successfully", none⟩ := by
  have hg : ¬ ((decide (r.authorId ≠ "") && decide (r.authorId ≠ "anonymous")) &&
      (!truthy (getUid req) || decide (r.authorId ≠ (getUid req).getD ""))) = true := by
    intro hc
    simp only [Bool.and_eq_true, decide_eq_true_eq] at hc
    obtain ⟨⟨h1, h2⟩, h3⟩ := hc
    rcases h with h | h | h
    · exact h1 h
    · exact h2 h
    · exact (author_check_iff req ⟨"", "", r.authorId, none, 0⟩).mp h3 h
  simp only [deleteReview, hg]
  rfl

/-- What the delete route does, case by case: for an existing review
`DELETE /:id` deletes the review exactly when the requester passes `adminOnly`
and, in addition, the review has no real author (`authorId` empty or
`"anonymous"`) or the requester identity equals `authorId`; otherwise the
review is left as it is: a requester that does not pass `adminOnly` is
answered by the middleware, and an admin who is not the author is answered 403
by the author guard of the handler. -/
theorem deleteRoute_cases (adminOnly : Request → Option (Nat × String))
    (req : Request) (r : Review) :
    ((deleteRoute adminOnly req (some r)).doc = none ↔
      (adminOnly req = none ∧
        (r.authorId = "" ∨ r.authorId = "anonymous" ∨ getUid req = some r.authorId))) ∧
    ((deleteRoute adminOnly req (some r)).doc ≠ none →
      (deleteRoute adminOnly req (some r)).doc = some r) ∧
    (∀ denial, adminOnly req = some denial →
      deleteRoute adminOnly req (some r) = ⟨denial.1, .message denial.2, some r⟩) ∧
    (adminOnly req = none → r.authorId ≠ "" → r.authorId ≠ "anonymous" →
      getUid req ≠ some r.authorId →
      deleteRoute adminOnly req (some r) =
        ⟨403, .message "Only the author can delete this post", some r⟩) := by
  cases ha : adminOnly req with
  | some denial =>
    have hroute : deleteRoute adminOnly req (some r) =
        ⟨denial.1, .message denial.2, some r⟩ := by
      simp only [deleteRoute, ha]
    rw [hroute]
    refine ⟨⟨fun h => by simp at h, fun h => by simp at h⟩, fun _ => rfl, ?_,
      fun h => by simp at h⟩
    intro d hd
    simp only [Option.some.injEq] at hd
    subst hd
    rfl
  | none =>
    have hroute : deleteRoute adminOnly req (some r) = deleteReview req (some r) := by
      simp only [deleteRoute, ha]
    rw [hroute]
    by_cases h : r.authorId ≠ "" ∧ r.authorId ≠ "anonymous" ∧ getUid req ≠ some r.authorId
    · rw [deleteReview_forbidden req r h.1 h.2.1 h.2.2]
      refine ⟨⟨fun hc => by simp at hc, fun hc => ?_⟩, fun _ => rfl,
        fun d hd => by simp at hd, fun _ _ _ _ => rfl⟩
      rcases hc.2 with hc | hc | hc
      · exact absurd hc h.1
      · exact absurd hc h.2.1
      · exact absurd hc h.2.2
    · have hp : r.authorId = "" ∨ r.authorId = "anonymous" ∨
          getUid req = some r.authorId := by
        by_contra hc
        simp only [not_or] at hc
        exact h ⟨hc.1, hc.2.1, hc.2.2⟩
      rw [deleteReview_permitted req r hp]
      refine ⟨⟨fun _ => ⟨rfl, hp⟩, fun _ => rfl⟩, fun hc => absurd rfl hc,
        fun d hd => by simp at hd, fun _ h1 h2 h3 => absurd ⟨h1, h2, h3⟩ h⟩

/-- C22 (evaluation at the failing input): the route is commented
`Delete: admin only`, yet for the review written by `"u1"` a requester that
passes `adminOnly` with the identity `"u2"` is answered 403 by the author guard
that `deleteReview` still carries, and the review is not deleted; the author,
once past `adminOnly`, deletes it. -/
theorem admin_cannot_delete_others_review :
    everyoneAdmin (asUser "u2") = none ∧
    deleteRoute everyoneAdmin (asUser "u2") (some reviewOfU1) =
      ⟨403, .message "Only the author can delete this post", some reviewOfU1⟩ ∧
    deleteRoute everyoneAdmin (asUser "u1") (some reviewOfU1) =
      ⟨200, .message "Review deleted successfully", none⟩ := by
  refine ⟨rfl, by decide, by decide⟩

/-! ## C27: the admin update of the removal flag -/

theorem adminUpdateReview_some (now : Nat) (b : Bool) (r : Review) :
    adminUpdateReview now (some b) (some r) =
      ⟨200, .review (persist (save now { hydrate r with isRemoved := b })),
        some (persist (save now { hydrate r with isRemoved := b }))⟩ := rfl

/-- C27 (amended): for an existing review and a boolean `b`, the admin update
called with `isRemoved = b` answers 200 and the stored and returned review has
`isRemoved = b || (the review counts 5 or more reports)`: it is `true` whenever
`b` is `true`, and it is `b` whenever the review counts fewer than 5 reports. -/
theorem adminUpdate_isRemoved (now : Nat) (b : Bool) (r : Review) :
    ∃ r2, adminUpdateReview now (some b) (some r) = ⟨200, .review r2, some r2⟩ ∧
      r2.isRemoved = (b || decide (repCount r.reports ≥ 5)) ∧
      (b = true → r2.isRemoved = true) ∧
      (repCount r.reports < 5 → r2.isRemoved = b) := by
  have hrem : (persist (save now { hydrate r with isRemoved := b })).isRemoved =
      (b || decide (repCount r.reports ≥ 5)) := by
    show (save now _).isRemoved = _
    rw [save_isRemoved]
    rfl
  refine ⟨persist (save now { hydrate r with isRemoved := b }), adminUpdateReview_some now b r,
    hrem, ?_, ?_⟩
  · intro hb
    rw [hrem, hb]
    rfl
  · intro hlt
    rw [hrem]
    have hd : decide (repCount r.reports ≥ 5) = false := by
      rw [decide_eq_false_iff_not]
      omega
    rw [hd]
    simp

/-- C27 (as stated) fails for `b = false` on a review that counts five
reports: the admin update answers 200, and the save hook sets the flag again,
so the stored and returned review has `isRemoved = true`. -/
theorem adminUpdate_cannot_restore_reported :
    ∃ r2, adminUpdateReview 9 (some false) (some removedWithFiveReports) =
        ⟨200, .review r2, some r2⟩ ∧
      r2.isRemoved = true ∧ repCount removedWithFiveReports.reports = 5 :=
  ⟨persist (save 9 { removedWithFiveReports with isRemoved := false }),
    by decide, by decide, by decide⟩

/-! ## C23: removed reviews are not served -/

theorem listFilter_not_removed (rx : String → String → Bool) (query : ListQuery) (r : Review)
    (h : listFilter rx query r = true) : r.isRemoved = false := by
  unfold listFilter at h
  simp only [Bool.and_eq_true, decide_eq_true_eq] at h
  have h1 := h.1.1.1.1
  cases hr : r.isRemoved with
  | true => exact absurd hr h1
  | false => rfl

theorem mem_getReviews (rx : String → String → Bool) (query : ListQuery) (docs : List Stored)
    (d : Stored) :
    d ∈ (getReviews rx query docs).2 ↔ d ∈ docs ∧ listFilter rx query d.review = true := by
  unfold getReviews
  rw [(List.perm_insertionSort _ _).mem_iff, List.mem_filter]

/-- C23: whatever the search text, the facet filters and the sort mode, every
review in the answer of `getReviews` is a stored review with
`isRemoved = false`, so no removed review is among the results; and
`getReviewById` answers 404 for a review with `isRemoved = true`. -/
theorem removed_never_served (rx : String → String → Bool) (query : ListQuery)
    (docs : List Stored) :
    (getReviews rx query docs).1 = 200 ∧
    (∀ d ∈ (getReviews rx query docs).2, d ∈ docs ∧ d.review.isRemoved = false) ∧
    (∀ d ∈ docs, d.review.isRemoved = true → d ∉ (getReviews rx query docs).2) ∧
    (∀ r, r.isRemoved = true →
      getReviewById (some r) = ⟨404, .message "Review not found", some r⟩) ∧
    (getReviews containsText {} threeStored).2.map (fun d => d.review.title) =
      ["Third", "First"] := by
  refine ⟨rfl, ?_, ?_, ?_, by decide⟩
  · intro d hd
    have h := (mem_getReviews rx query docs d).mp hd
    exact ⟨h.1, listFilter_not_removed rx query d.review h.2⟩
  · intro d _ hr hd
    have h := (mem_getReviews rx query docs d).mp hd
    have hf := listFilter_not_removed rx query d.review h.2
    rw [hr] at hf
    exact absurd hf (by decide)
  · intro r hr
    simp only [getReviewById, hr, if_true]

/-! ## C25: two `toggleLike` calls at the same time -/

theorem toggleLike_doc_eq_likeWrite (req : Request) (u : String) (doc : Option Review)
    (hu : getUid req = some u) : (toggleLike req doc).doc = likeWrite u doc doc := by
  cases doc with
  | none => simp [toggleLike, hu, likeWrite]
  | some r =>
    cases hr : r.isRemoved with
    | true =>
      rw [toggleLike_removed req r u hu hr]
      simp [likeWrite, hr]
    | false =>
      simp only [toggleLike, hu, hr, likeWrite, likeArrays, Bool.false_eq_true, if_false,
        Option.map_some', withReactions]

theorem likeWrite_overwrites (ua ub : String) (r : Review) :
    likeWrite ub (some r) (likeWrite ua (some r) (some r)) = likeWrite ub (some r) (some r) := by
  cases hr : r.isRemoved with
  | true => simp [likeWrite, hr]
  | false =>
    simp only [likeWrite, hr, Bool.false_eq_true, if_false, Option.map_some',
      withReactions_twice]

theorem interleavings_eq :
    interleavings =
      [[.readA, .writeA, .readB, .writeB], [.readA, .readB, .writeA, .writeB],
       [.readA, .readB, .writeB, .writeA], [.readB, .readA, .writeA, .writeB],
       [.readB, .readA, .writeB, .writeA], [.readB, .writeB, .readA, .writeA]] := by
  decide

/-- C25 (amended): of the six interleavings of the read and write steps of two
`toggleLike` calls, by `ua` and by `ub`, on an existing review, the two in which
one call writes before the other reads leave the result of running the calls
one after the other; in the four others, in which both calls read before
either writes, the stored review is the one the call that writes last would
have left alone, so the other call's toggle is not reflected. -/
theorem interleaved_toggles (reqA reqB : Request) (ua ub : String) (r : Review)
    (s : List Step)
    (hA : getUid reqA = some ua) (hB : getUid reqB = some ub) (hs : s ∈ interleavings) :
    (s = [.readA, .writeA, .readB, .writeB] →
      runSchedule ua ub s (some r) = (toggleLike reqB (toggleLike reqA (some r)).doc).doc) ∧
    (s = [.readB, .writeB, .readA, .writeA] →
      runSchedule ua ub s (some r) = (toggleLike reqA (toggleLike reqB (some r)).doc).doc) ∧
    (s ∉ serialSchedules → s.getLast? = some .writeB →
      runSchedule ua ub s (some r) = (toggleLike reqB (some r)).doc) ∧
    (s ∉ serialSchedules → s.getLast? = some .writeA →
      runSchedule ua ub s (some r) = (toggleLike reqA (some r)).doc) ∧
    (s.getLast? = some .writeA ∨ s.getLast? = some .writeB) := by
  have eA := fun doc => toggleLike_doc_eq_likeWrite reqA ua doc hA
  have eB := fun doc => toggleLike_doc_eq_likeWrite reqB ub doc hB
  have oAB := likeWrite_overwrites ua ub r
  have oBA := likeWrite_overwrites ub ua r
  rw [interleavings_eq] at hs
  simp only [List.mem_cons, List.mem_singleton, List.not_mem_nil, or_false] at hs
  rcases hs with h | h | h | h | h | h <;> subst h
  · refine ⟨fun _ => ?_, fun h => by simp at h, fun h => absurd (by decide) h,
      fun h => absurd (by decide) h, Or.inr rfl⟩
    rw [eB, eA]
    rfl
  · refine ⟨fun h => by simp at h, fun h => by simp at h, fun _ _ => ?_,
      fun _ h => by simp at h, Or.inr rfl⟩
    rw [eB]
    exact oAB
  · refine ⟨fun h => by simp at h, fun h => by simp at h, fun _ h => by simp at h,
      fun _ _ => ?_, Or.inl rfl⟩
    rw [eA]
    exact oBA
  · refine ⟨fun h => by simp at h, fun h => by simp at h, fun _ _ => ?_,
      fun _ h => by simp at h, Or.inr rfl⟩
    rw [eB]
    exact oAB
  · refine ⟨fun h => by simp at h, fun h => by simp at h, fun _ h => by simp at h,
      fun _ _ => ?_, Or.inl rfl⟩
    rw [eA]
    exact oBA
  · refine ⟨fun h => by simp at h, fun _ => ?_, fun h => absurd (by decide) h,
      fun h => absurd (by decide) h, Or.inl rfl⟩
    rw [eA, eB]
    rfl

theorem interleaved_toggles_witness :
    ([Step.readA, .readB, .writeA, .writeB] = [.readA, .writeA, .readB, .writeB] →
      runSchedule "a" "b" [.readA, .readB, .writeA, .writeB] (some sampleReview) =
        (toggleLike (asUser "b") (toggleLike (asUser "a") (some sampleReview)).doc).doc) ∧
    ([Step.readA, .readB, .writeA, .writeB] = [.readB, .writeB, .readA, .writeA] →
      runSchedule "a" "b" [.readA, .readB, .writeA, .writeB] (some sampleReview) =
        (toggleLike (asUser "a") (toggleLike (asUser "b") (some sampleReview)).doc).doc) ∧
    ([Step.readA, .readB, .writeA, .writeB] ∉ serialSchedules →
      [Step.readA, .readB, .writeA, .writeB].getLast? = some .writeB →
      runSchedule "a" "b" [.readA, .readB, .writeA, .writeB] (some sampleReview) =
        (toggleLike (asUser "b") (some sampleReview)).doc) ∧
    ([Step.readA, .readB, .writeA, .writeB] ∉ serialSchedules →
      [Step.readA, .readB, .writeA, .writeB].getLast? = some .writeA →
      runSchedule "a" "b" [.readA, .readB, .writeA, .writeB] (some sampleReview) =
        (toggleLike (asUser "a") (some sampleReview)).doc) ∧
    ([Step.readA, .readB, .writeA, .writeB].getLast? = some .writeA ∨
      [Step.readA, .readB, .writeA, .writeB].getLast? = some .writeB) :=
  interleaved_toggles (asUser "a") (asUser "b") "a" "b" sampleReview
    [.readA, .readB, .writeA, .writeB] (by decide) (by decide) (by decide)

/-- C25 (as stated) fails when both calls read before either writes: on a
review nobody likes, with the schedule read A, read B, write A, write B the
stored `likedBy` is `["b"]`, the like of `"a"` is lost, and the result is
neither of the two results of running the calls one after the other
(`["a", "b"]` and `["b", "a"]`). -/
theorem concurrent_likes_lose_update :
    [Step.readA, .readB, .writeA, .writeB] ∈ interleavings ∧
    runSchedule "a" "b" [.readA, .readB, .writeA, .writeB] (some sampleReview) =
      some (withReactions sampleReview ["b"] []) ∧
    (toggleLike (asUser "b") (toggleLike (asUser "a") (some sampleReview)).doc).doc =
      some (withReactions sampleReview ["a", "b"] []) ∧
    (toggleLike (asUser "a") (toggleLike (asUser "b") (some sampleReview)).doc).doc =
      some (withReactions sampleReview ["b", "a"] []) ∧
    "a" ∉ normalize (withReactions sampleReview ["b"] []).likedBy := by
  refine ⟨by decide, by decide, by decide, by decide, by decide⟩

/-! ## C26: the status of a complaint -/

/-- C26 (evaluation at the failing input): `updateStatus` with the status
`"bogus"`, which is not in the enumeration, answers 200 and stores it, whereas
the admin `updateComplaint`, which saves through the schema validation, answers
500 for the same status and stores nothing, and keeps the enumeration whenever
it succeeds in setting a status. -/
theorem updateStatus_stores_unlisted_status :
    "bogus" ∉ complaintStatuses ∧
    updateStatus (some "bogus") (some sampleComplaint) =
      ⟨200, some { sampleComplaint with status := "bogus" }⟩ ∧
    updateComplaint (some "bogus") (some sampleComplaint) = ⟨500, some sampleComplaint⟩ ∧
    (∀ s c c2, truthy (some s) = true → updateComplaint (some s) (some c) = ⟨200, some c2⟩ →
      c2.status ∈ complaintStatuses) := by
  refine ⟨by decide, by decide, by decide, ?_⟩
  intro s c c2 ht h
  unfold updateComplaint at h
  simp only [ht, if_true] at h
  by_cases hv : (requiredPresent c && decide ((some s).getD "" ∈ complaintStatuses)) = true
  · simp only [hv, if_true, ComplaintOutcome.mk.injEq, Option.some.injEq, true_and] at h
    subst h
    simp only [Bool.and_eq_true, decide_eq_true_eq] at hv
    exact hv.2
  · simp only [hv] at h
    simp at h

end TasteLog
